import Mathlib

/-!
# rFaaS: RDMA connection layer and executor-manager process spawning

A shallow embedding of `rdmalib/lib/connection.cpp` and
`server/executor_manager/executor_process.cpp`.

* C++ objects are records; a method is a function from the object (and the
  state of the verbs library) to the updated object, the updated library
  state and the returned value.
* The verbs library (`ibv_post_send`, `ibv_post_recv`, `rdma_destroy_*`) is
  external. It is modelled by the record `Verbs`: a script of the return
  codes the library will hand out, and a log of every call made to it.
* Pointers into the batch array `_batch_wrs` are indices (`Option Nat`,
  `none` being the null pointer).
* `int32_t` values are integers; the conversions to `uint64_t` (`wr_id`) and
  back to `int32_t` (return values) are explicit, and the increment of the
  request counter wraps around at the largest `int32_t`.
-/

namespace rdmalib

/-! ## Machine integers -/

/-- Conversion of a signed integer to `uint64_t` (value modulo `2^64`). -/
def toUInt64 (x : Int) : Nat := (x % 18446744073709551616).toNat

/-- Conversion of an integer to `int32_t` (two's complement truncation). -/
def toInt32 (x : Int) : Int := (x + 2147483648) % 4294967296 - 2147483648

/-- The values an `int32_t` can hold. -/
def isInt32 (x : Int) : Prop := -2147483648 ≤ x ∧ x < 2147483648

instance (x : Int) : Decidable (isInt32 x) := by
  unfold isInt32; infer_instance

/-- The increment `x++` of an `int32_t`: the next value, and the smallest
`int32_t` after the largest one (the overflow, undefined in C++, wraps around
on two's complement hardware). -/
def int32_incr (x : Int) : Int := toInt32 (x + 1)

/-! ## Verbs data structures -/

/-- One entry of a scatter-gather list (`struct ibv_sge`). -/
structure ibv_sge where
  addr : Nat
  length : Nat
  lkey : Nat
deriving DecidableEq, Repr

/-- Container of scatter-gather entries (`rdmalib::ScatterGatherElement`). -/
structure ScatterGatherElement where
  _sges : List ibv_sge
deriving DecidableEq, Repr

/-- Modelled from the spec: `ScatterGatherElement::array()` is declared in
`rdmalib.hpp` but its body is not part of the sources; it exposes the stored
entries (section 4.2 of the specification). -/
def ScatterGatherElement.array (e : ScatterGatherElement) : List ibv_sge := e._sges

/-- Modelled from the spec: `ScatterGatherElement::size()` is declared in
`rdmalib.hpp` but its body is not part of the sources; it is the number of
stored entries (section 4.2 of the specification). -/
def ScatterGatherElement.size (e : ScatterGatherElement) : Nat := e._sges.length

/-- Receive work request (`struct ibv_recv_wr`). `next` is an index into the
array the request lives in, `sg_list` is `none` for a null pointer. -/
structure ibv_recv_wr where
  wr_id : Nat
  next : Option Nat
  sg_list : Option (List ibv_sge)
  num_sge : Int
deriving DecidableEq, Repr

/-- Opcodes of send work requests used by the connection. -/
inductive ibv_wr_opcode where
  | IBV_WR_RDMA_WRITE
  | IBV_WR_RDMA_WRITE_WITH_IMM
  | IBV_WR_SEND
  | IBV_WR_ATOMIC_CMP_AND_SWP
deriving DecidableEq, Repr

/-- The union `wr` of `struct ibv_send_wr`: zeroed by `memset`, or holding the
`rdma` or the `atomic` member; `indeterminate` when never written. -/
inductive wr_union where
  | indeterminate
  | rdma (remote_addr : Nat) (rkey : Nat)
  | atomic (remote_addr : Nat) (compare_add : Nat) (swap : Nat) (rkey : Nat)
deriving DecidableEq, Repr

/-- Send work request (`struct ibv_send_wr`). `imm_data` is `none` when the
field was never written. -/
structure ibv_send_wr where
  wr_id : Nat
  next : Option Nat
  sg_list : Option (List ibv_sge)
  num_sge : Int
  opcode : ibv_wr_opcode
  send_flags : Nat
  imm_data : Option Nat
  wr : wr_union
deriving DecidableEq, Repr

/-- Flag `IBV_SEND_SIGNALED` of `enum ibv_send_flags`. -/
def IBV_SEND_SIGNALED : Nat := 2

/-- Flag `IBV_SEND_INLINE` of `enum ibv_send_flags`. -/
def IBV_SEND_INLINE : Nat := 8

/-- Remote buffer descriptor (`rdmalib::RemoteBuffer`). -/
structure RemoteBuffer where
  addr : Nat
  rkey : Nat
  size : Nat
deriving DecidableEq, Repr

/-! ## The verbs library as an environment -/

/-- A call of `rdma_destroy_ep`, `rdma_destroy_qp` or `rdma_destroy_id`, with
the connection-manager id it was given. -/
inductive DestroyCall where
  | rdma_destroy_ep (id : Nat)
  | rdma_destroy_qp (id : Nat)
  | rdma_destroy_id (id : Nat)
deriving DecidableEq, Repr

/-- A recorded call of `ibv_post_send`. -/
structure SendPost where
  qp : Option Nat
  wr : ibv_send_wr
  ret : Int
deriving DecidableEq, Repr

/-- A recorded call of `ibv_post_recv`: the memory holding the work requests
at the time of the call, the index of the first request, the return code. -/
structure RecvPost where
  qp : Option Nat
  mem : List ibv_recv_wr
  head : Nat
  ret : Int
deriving DecidableEq, Repr

/-- State of the verbs library: `rets` are the return codes of the coming
post calls (`0` once the script is exhausted), the logs record the calls. -/
structure Verbs where
  rets : List Int
  send_log : List SendPost
  recv_log : List RecvPost
  destroy_log : List DestroyCall
deriving DecidableEq, Repr

/-- The library call `ibv_post_send(qp, &wr, &bad)`. -/
def ibv_post_send (v : Verbs) (qp : Option Nat) (wr : ibv_send_wr) : Verbs × Int :=
  let r := v.rets.headD 0
  ({ v with rets := v.rets.tail, send_log := v.send_log ++ [⟨qp, wr, r⟩] }, r)

/-- The library call `ibv_post_recv(qp, &mem[head], &bad)`. -/
def ibv_post_recv (v : Verbs) (qp : Option Nat) (mem : List ibv_recv_wr) (head : Nat) :
    Verbs × Int :=
  let r := v.rets.headD 0
  ({ v with rets := v.rets.tail, recv_log := v.recv_log ++ [⟨qp, mem, head, r⟩] }, r)

/-- Follow `next` pointers from `p` through `mem`, as the library does when it
walks a chain of work requests. `none` when the chain leaves the array or
does not end within `fuel` requests. -/
def walk (mem : List ibv_recv_wr) : Nat → Option Nat → Option (List ibv_recv_wr)
  | _, none => some []
  | 0, some _ => none
  | fuel + 1, some i =>
    match mem[i]? with
    | none => none
    | some w => (walk mem fuel w.next).map (fun l => w :: l)

/-- The chain of work requests handed to the library by a recorded call. A
chain without a cycle has at most `mem.length` requests. -/
def RecvPost.chain (p : RecvPost) : Option (List ibv_recv_wr) :=
  walk p.mem p.mem.length (some p.head)

/-- The receive posts recorded between library states `v` and `v2`. -/
def new_recv (v v2 : Verbs) : List RecvPost := v2.recv_log.drop v.recv_log.length

/-- The send posts recorded between library states `v` and `v2`. -/
def new_send (v v2 : Verbs) : List SendPost := v2.send_log.drop v.send_log.length

/-- The destroy calls recorded between library states `v` and `v2`. -/
def new_destroy (v v2 : Verbs) : List DestroyCall :=
  v2.destroy_log.drop v.destroy_log.length

/-! ## Connection -/

/-- State of `rdmalib::Connection`. `_rbatch` is the static constant giving
the size of `_batch_wrs`; its value comes from `connection.hpp`. `_req_count`
is an `int32_t`: it is only changed through `int32_incr`. -/
structure Connection where
  _rbatch : Nat
  _id : Option Nat
  _qp : Option Nat
  _channel : Option Nat
  _req_count : Int
  _passive : Bool
  _send_flags : Nat
  _batch_wrs : List ibv_recv_wr
deriving DecidableEq, Repr

/-- What a `post_*` method leaves behind: the connection, the library state
and the returned `int32_t`. -/
structure PostResult where
  conn : Connection
  verbs : Verbs
  ret : Int
deriving DecidableEq, Repr

/-- Assignment `arr[i].next = p`. -/
def set_next (arr : List ibv_recv_wr) (i : Nat) (p : Option Nat) : List ibv_recv_wr :=
  match arr[i]? with
  | some w => arr.set i { w with next := p }
  | none => arr

/-- The constructor loop over `i = 0 .. _rbatch-1`: entry `i` gets
`wr_id = i`, `sg_list = 0`, `num_sge = 0`, `next = &_batch_wrs[i+1]`. -/
def init_batch_loop (rbatch : Nat) : List ibv_recv_wr :=
  (List.range rbatch).map
    (fun i => { wr_id := i, next := some (i + 1), sg_list := none, num_sge := 0 })

/-- The batch array after the constructor body: the loop, then
`_batch_wrs[_rbatch-1].next = NULL`. -/
def init_batch (rbatch : Nat) : List ibv_recv_wr :=
  set_next (init_batch_loop rbatch) (rbatch - 1) none

/-- Method `Connection::inlining(bool enable)`. -/
def Connection.inlining (c : Connection) (enable : Bool) : Connection :=
  if enable then { c with _send_flags := IBV_SEND_SIGNALED ||| IBV_SEND_INLINE }
  else { c with _send_flags := IBV_SEND_SIGNALED }

/-- Constructor `Connection::Connection(bool passive)`. The member
`_send_flags` has no initializer; `inlining(false)` assigns it. -/
def Connection.new (rbatch : Nat) (passive : Bool) : Connection :=
  let c : Connection :=
    { _rbatch := rbatch, _id := none, _qp := none, _channel := none, _req_count := 0,
      _passive := passive, _send_flags := 0, _batch_wrs := [] }
  let c := c.inlining false
  { c with _batch_wrs := init_batch rbatch }

/-- Move constructor `Connection::Connection(Connection&& obj)`: returns the
new object and the moved-from `obj`. `_send_flags` is not in the initializer
list and is not assigned in the body, so the new object holds the
indeterminate value `flags`. -/
def Connection.move (obj : Connection) (flags : Nat) : Connection × Connection :=
  ({ _rbatch := obj._rbatch, _id := obj._id, _qp := obj._qp, _channel := obj._channel,
     _req_count := obj._req_count, _passive := obj._passive, _send_flags := flags,
     _batch_wrs := init_batch obj._rbatch },
   { obj with _id := none, _qp := none, _req_count := 0 })

/-- Body of the loop of `initialize_batched_recv` for index `i`: `_rwc_sges[i]`
is a copy of `sge` with every address moved by `i * offset`, and entry `i` of
the batch array points at it. -/
def batched_recv_step (sge : ScatterGatherElement) (offset : Nat)
    (arr : List ibv_recv_wr) (i : Nat) : List ibv_recv_wr :=
  let rwc : ScatterGatherElement :=
    ScatterGatherElement.mk (sge._sges.map (fun sg => { sg with addr := sg.addr + i * offset }))
  match arr[i]? with
  | some w => arr.set i { w with sg_list := some rwc.array, num_sge := toInt32 rwc.size }
  | none => arr

/-- Method `Connection::initialize_batched_recv(sge, offset)`. -/
def Connection.initialize_batched_recv (c : Connection) (sge : ScatterGatherElement)
    (offset : Nat) : Connection :=
  let arr := (List.range c._rbatch).foldl (batched_recv_step sge offset) c._batch_wrs
  { c with _batch_wrs := arr }

/-- Method `Connection::close()`. -/
def Connection.close (c : Connection) (v : Verbs) : Connection × Verbs :=
  match c._id with
  | some id =>
    if !c._passive then
      ({ c with _id := none },
       { v with destroy_log := v.destroy_log ++ [DestroyCall.rdma_destroy_ep id] })
    else
      ({ c with _id := none },
       { v with destroy_log :=
          v.destroy_log ++ [DestroyCall.rdma_destroy_qp id, DestroyCall.rdma_destroy_id id] })
  | none => (c, v)

/-- Destructor `Connection::~Connection()`: calls `close()`. -/
def Connection.destructor (c : Connection) (v : Verbs) : Connection × Verbs :=
  c.close v

/-- The local `wr` of `Connection::post_send` when it is handed to
`ibv_post_send`. The structure is not zeroed: `imm_data` and the union stay
indeterminate. `_req_count` is read before its increment. -/
def Connection.post_send_wr (c : Connection) (elems : ScatterGatherElement)
    (id : Int) (force_inline : Bool) : ibv_send_wr :=
  { wr_id := toUInt64 (if id = -1 then c._req_count else id), next := none,
    sg_list := some elems.array, num_sge := toInt32 elems.size,
    opcode := ibv_wr_opcode.IBV_WR_SEND,
    send_flags := if force_inline then IBV_SEND_SIGNALED ||| IBV_SEND_INLINE
                  else c._send_flags,
    imm_data := none, wr := wr_union.indeterminate }

/-- Method `Connection::post_send(elems, id, force_inline)`. -/
def Connection.post_send (c : Connection) (v : Verbs) (elems : ScatterGatherElement)
    (id : Int) (force_inline : Bool) : PostResult :=
  let wr : ibv_send_wr := c.post_send_wr elems id force_inline
  let c1 : Connection := if id = -1 then { c with _req_count := int32_incr c._req_count } else c
  let (v1, ret) := ibv_post_send v c1._qp wr
  if ret ≠ 0 then ⟨c1, v1, -1⟩
  else ⟨c1, v1, toInt32 (c1._req_count - 1)⟩

/-- The loop `for(i = 0; i < n; ++i) { ret = ibv_post_recv(_qp, &mem[0], &bad); if(ret) break; }`
shared by `post_batched_empty_recv` and `post_recv`, with `n` iterations left
and `ret` the current value of the local variable. -/
def post_recv_loop (qp : Option Nat) (mem : List ibv_recv_wr) : Nat → Int → Verbs → Verbs × Int
  | 0, ret, v => (v, ret)
  | n + 1, _, v =>
    let (v1, r) := ibv_post_recv v qp mem 0
    if r ≠ 0 then (v1, r) else post_recv_loop qp mem n r v1

/-- Method `Connection::post_batched_empty_recv(int count)`. `/` and `%` on
`int` truncate towards zero. -/
def Connection.post_batched_empty_recv (c : Connection) (v : Verbs) (count : Int) :
    PostResult :=
  let loops : Int := Int.tdiv count c._rbatch
  let reminder : Int := Int.tmod count c._rbatch
  let (v1, ret1) := post_recv_loop c._qp c._batch_wrs loops.toNat 0 v
  let (c2, v2, ret2) :=
    if ret1 = 0 ∧ reminder > 0 then
      let arr1 := set_next c._batch_wrs (reminder - 1).toNat none
      let (v2, r) := ibv_post_recv v1 c._qp arr1 0
      let arr2 := set_next arr1 (reminder - 1).toNat (some reminder.toNat)
      ({ c with _batch_wrs := arr2 }, v2, r)
    else (c, v1, ret1)
  if ret2 ≠ 0 then ⟨c2, v2, -1⟩ else ⟨c2, v2, count⟩

/-- The local `wr` of `Connection::post_recv`. `_req_count` is read before
its increment. -/
def Connection.post_recv_wr (c : Connection) (elem : ScatterGatherElement) (id : Int) :
    ibv_recv_wr :=
  { wr_id := toUInt64 (if id = -1 then c._req_count else id), next := none,
    sg_list := some elem.array, num_sge := toInt32 elem.size }

/-- Method `Connection::post_recv(elem, id, count)`. The local `int ret` has no
initializer: `ret0` is the indeterminate value it holds when the loop body
never runs. -/
def Connection.post_recv (c : Connection) (v : Verbs) (elem : ScatterGatherElement)
    (id : Int) (count : Int) (ret0 : Int) : PostResult :=
  let wr : ibv_recv_wr := c.post_recv_wr elem id
  let c1 : Connection := if id = -1 then { c with _req_count := int32_incr c._req_count } else c
  let (v1, ret) := post_recv_loop c1._qp [wr] count.toNat ret0 v
  if ret ≠ 0 then ⟨c1, v1, -1⟩ else ⟨c1, v1, toInt32 wr.wr_id⟩

/-- The first part of `Connection::_post_write`: the assignments to the fields
of `wr` (`_req_count` is read before its increment) and the test
`if(wr.num_sge == 1 && wr.sg_list[0].length == 0) wr.num_sge = 0;`. The result
is the work request handed to `ibv_post_send`. -/
def Connection._post_write_wr (c : Connection) (elems : ScatterGatherElement)
    (wr : ibv_send_wr) (force_inline : Bool) : ibv_send_wr :=
  let wr1 : ibv_send_wr :=
    { wr with
      wr_id := toUInt64 c._req_count, next := none, sg_list := some elems.array,
      num_sge := toInt32 elems.size,
      send_flags := if force_inline then IBV_SEND_SIGNALED ||| IBV_SEND_INLINE
                    else c._send_flags }
  let first_empty : Bool :=
    match elems.array.head? with
    | some sg => sg.length == 0
    | none => false
  if wr1.num_sge = 1 ∧ first_empty = true then { wr1 with num_sge := 0 } else wr1

/-- Method `Connection::_post_write(elems, wr, force_inline)`. -/
def Connection._post_write (c : Connection) (v : Verbs) (elems : ScatterGatherElement)
    (wr : ibv_send_wr) (force_inline : Bool) : PostResult :=
  let wr2 : ibv_send_wr := c._post_write_wr elems wr force_inline
  let c1 : Connection := { c with _req_count := int32_incr c._req_count }
  let (v1, ret) := ibv_post_send v c1._qp wr2
  if ret ≠ 0 then ⟨c1, v1, -1⟩
  else ⟨c1, v1, toInt32 (c1._req_count - 1)⟩

/-- A `struct ibv_send_wr` after `memset(&wr, 0, sizeof(wr))`, seen through the
`rdma` member of its union. -/
def zeroed_send_wr : ibv_send_wr :=
  { wr_id := 0, next := none, sg_list := none, num_sge := 0,
    opcode := ibv_wr_opcode.IBV_WR_RDMA_WRITE, send_flags := 0, imm_data := some 0,
    wr := wr_union.rdma 0 0 }

/-- Library function `htonl` on a little-endian host: the four bytes of a
32-bit value in reverse order. -/
def htonl (x : Nat) : Nat :=
  (x % 256) * 16777216 + (x / 256 % 256) * 65536 + (x / 65536 % 256) * 256
    + (x / 16777216 % 256)

/-- Library function `ntohl` on a little-endian host. -/
def ntohl (x : Nat) : Nat := htonl x

/-- Method `Connection::post_write(elems, rbuf, force_inline)`. -/
def Connection.post_write (c : Connection) (v : Verbs) (elems : ScatterGatherElement)
    (rbuf : RemoteBuffer) (force_inline : Bool) : PostResult :=
  let wr : ibv_send_wr :=
    { zeroed_send_wr with
      opcode := ibv_wr_opcode.IBV_WR_RDMA_WRITE,
      wr := wr_union.rdma rbuf.addr rbuf.rkey }
  c._post_write v elems wr force_inline

/-- Method `Connection::post_write(elems, rbuf, immediate, force_inline)`. -/
def Connection.post_write_imm (c : Connection) (v : Verbs) (elems : ScatterGatherElement)
    (rbuf : RemoteBuffer) (immediate : Nat) (force_inline : Bool) : PostResult :=
  let wr : ibv_send_wr :=
    { zeroed_send_wr with
      opcode := ibv_wr_opcode.IBV_WR_RDMA_WRITE_WITH_IMM,
      imm_data := some (htonl immediate),
      wr := wr_union.rdma rbuf.addr rbuf.rkey }
  c._post_write v elems wr force_inline

/-- The local `wr` of `Connection::post_cas` when it is handed to
`ibv_post_send`. `_req_count` is read before its increment. -/
def Connection.post_cas_wr (c : Connection) (elems : ScatterGatherElement)
    (rbuf : RemoteBuffer) (compare : Nat) (swap : Nat) : ibv_send_wr :=
  { zeroed_send_wr with
    wr_id := toUInt64 c._req_count, next := none, sg_list := some elems.array,
    num_sge := toInt32 elems.size,
    opcode := ibv_wr_opcode.IBV_WR_ATOMIC_CMP_AND_SWP,
    send_flags := IBV_SEND_SIGNALED,
    wr := wr_union.atomic rbuf.addr compare swap rbuf.rkey }

/-- Method `Connection::post_cas(elems, rbuf, compare, swap)`. -/
def Connection.post_cas (c : Connection) (v : Verbs) (elems : ScatterGatherElement)
    (rbuf : RemoteBuffer) (compare : Nat) (swap : Nat) : PostResult :=
  let wr : ibv_send_wr := c.post_cas_wr elems rbuf compare swap
  let c1 : Connection := { c with _req_count := int32_incr c._req_count }
  let (v1, ret) := ibv_post_send v c1._qp wr
  if ret ≠ 0 then ⟨c1, v1, -1⟩
  else ⟨c1, v1, toInt32 (c1._req_count - 1)⟩

end rdmalib

namespace rdmalib

/-! ## Sequences of calls on one connection -/

/-- A call of one of the `post_*` methods, with its arguments. -/
inductive PostCall where
  | post_send (elems : ScatterGatherElement) (id : Int) (force_inline : Bool)
  | post_recv (elem : ScatterGatherElement) (id : Int) (count : Int) (ret0 : Int)
  | post_batched_empty_recv (count : Int)
  | post_write (elems : ScatterGatherElement) (rbuf : RemoteBuffer) (force_inline : Bool)
  | post_write_imm (elems : ScatterGatherElement) (rbuf : RemoteBuffer) (immediate : Nat)
      (force_inline : Bool)
  | post_cas (elems : ScatterGatherElement) (rbuf : RemoteBuffer) (compare : Nat) (swap : Nat)
deriving DecidableEq, Repr

/-- Perform one call on connection `c` with library state `v`. -/
def PostCall.exec (op : PostCall) (c : Connection) (v : Verbs) : PostResult :=
  match op with
  | .post_send elems id fi => c.post_send v elems id fi
  | .post_recv elem id count ret0 => c.post_recv v elem id count ret0
  | .post_batched_empty_recv count => c.post_batched_empty_recv v count
  | .post_write elems rbuf fi => c.post_write v elems rbuf fi
  | .post_write_imm elems rbuf imm fi => c.post_write_imm v elems rbuf imm fi
  | .post_cas elems rbuf cmp swp => c.post_cas v elems rbuf cmp swp

/-- A call is well-formed when `post_recv` is asked for at least one receive. -/
def PostCall.count_positive : PostCall → Bool
  | .post_recv _ _ count _ => decide (1 ≤ count)
  | _ => true

/-- Some library call made between `v` and `v2` returned a non-zero code. -/
def post_failed (v v2 : Verbs) : Prop :=
  (∃ p ∈ new_send v v2, p.ret ≠ 0) ∨ (∃ p ∈ new_recv v v2, p.ret ≠ 0)

/-! ## Lifetime of a connection -/

/-- A connection object, the object move-constructed from it (if any), and
the verbs library. -/
structure Life where
  obj : Connection
  moved : Option Connection
  verbs : Verbs
deriving DecidableEq, Repr

/-- What can happen to a connection between construction and destruction:
`close()` on it, move construction of a second object from it (`flags` is
the indeterminate `_send_flags` of the new object), `close()` on the second
object. -/
inductive LifeStep where
  | close_obj
  | move (flags : Nat)
  | close_moved
deriving DecidableEq, Repr

/-- One step of a lifetime. -/
def Life.step (s : Life) : LifeStep → Life
  | .close_obj =>
    let r := s.obj.close s.verbs
    { s with obj := r.1, verbs := r.2 }
  | .move flags =>
    match s.moved with
    | none =>
      let r := s.obj.move flags
      { s with obj := r.2, moved := some r.1 }
    | some _ => s
  | .close_moved =>
    match s.moved with
    | some m =>
      let r := m.close s.verbs
      { s with moved := some r.1, verbs := r.2 }
    | none => s

/-- End of the lifetime: the destructors of both objects run, the one of the
original object first when `obj_first` holds. -/
def Life.finish (s : Life) (obj_first : Bool) : Verbs :=
  match s.moved with
  | none => (s.obj.destructor s.verbs).2
  | some m =>
    if obj_first then (m.destructor (s.obj.destructor s.verbs).2).2
    else (s.obj.destructor (m.destructor s.verbs).2).2

/-- A whole lifetime of connection `c`: the steps, then the destructors. -/
def lifetime (c : Connection) (v : Verbs) (steps : List LifeStep) (obj_first : Bool) : Verbs :=
  (steps.foldl Life.step { obj := c, moved := none, verbs := v }).finish obj_first

/-- The destroy calls a connection with id `x` owes the library: the endpoint
on the active side, the queue pair and then the id on the passive side. -/
def expected_destroys (passive : Bool) (x : Nat) : List DestroyCall :=
  if passive then [DestroyCall.rdma_destroy_qp x, DestroyCall.rdma_destroy_id x]
  else [DestroyCall.rdma_destroy_ep x]

/-! ## Well-formed batch array -/

/-- The `next` pointers of the batch array form the chain built by the
constructor: `_rbatch` entries, entry `i` pointing to entry `i + 1`, the
last one to null. -/
def Connection.chained (c : Connection) : Prop :=
  0 < c._rbatch ∧ c._batch_wrs.length = c._rbatch ∧
  ∀ i w, c._batch_wrs[i]? = some w →
    w.next = if i + 1 < c._rbatch then some (i + 1) else none

/-- The first `k` entries of the batch array, the last of them terminated by
a null `next`: the chain the library sees in the fix-up post of
`post_batched_empty_recv`. -/
def partial_chain (arr : List ibv_recv_wr) (k : Nat) : List ibv_recv_wr :=
  (set_next arr (k - 1) none).take k

/-- Number of work requests handed to the library by a list of receive posts
(a post whose chain cannot be walked counts for none). -/
def posted_wrs (l : List RecvPost) : Nat :=
  (l.map (fun p => match p.chain with | some ch => ch.length | none => 0)).sum

/-- The degenerate scatter-gather list of section 4.2 of the specification:
exactly one entry, of length zero. -/
def ScatterGatherElement.degenerate (e : ScatterGatherElement) : Bool :=
  match e._sges with
  | [sg] => sg.length == 0
  | _ => false

/-! ## Invariants used in the proofs -/

/-- The destroy calls `close()` would issue for connection `c` now. -/
def pending (c : Connection) : List DestroyCall :=
  match c._id with
  | some x => expected_destroys c._passive x
  | none => []

/-- Where the destroy calls owed for a connection stand during a lifetime
that started with log `log0` and owes `owed`: still owed by the object, still
owed by the object move-constructed from it, or issued. -/
def Life.settled (log0 owed : List DestroyCall) (s : Life) : Prop :=
  (s.verbs.destroy_log = log0 ∧ pending s.obj = owed ∧ s.moved = none) ∨
  (s.verbs.destroy_log = log0 ∧ pending s.obj = [] ∧
    ∃ m, s.moved = some m ∧ pending m = owed) ∨
  (s.verbs.destroy_log = log0 ++ owed ∧ pending s.obj = [] ∧
    ∀ m, s.moved = some m → pending m = [])

/-! ## Sample inputs -/

/-- A verbs library that has seen no call yet and will answer the coming
post calls with `rets`. -/
def fresh_verbs (rets : List Int) : Verbs :=
  { rets := rets, send_log := [], recv_log := [], destroy_log := [] }

/-- A connection with a batch of four receives, to which an endpoint has
attached the id `1` and the queue pair `2`. -/
def sample_conn (passive : Bool) : Connection :=
  { Connection.new 4 passive with _id := some 1, _qp := some 2 }

/-- A scatter-gather list with one entry of 64 bytes. -/
def sample_sge : ScatterGatherElement := { _sges := [{ addr := 4096, length := 64, lkey := 7 }] }

/-- A scatter-gather list with one entry of length zero. -/
def empty_sge : ScatterGatherElement := { _sges := [{ addr := 4096, length := 0, lkey := 7 }] }

/-- A remote buffer. -/
def sample_rbuf : RemoteBuffer := { addr := 8192, rkey := 9, size := 64 }

end rdmalib

namespace rfaas.executor_manager

/-! ## Executor processes -/

/-- Outcome of a liveness check (`ActiveExecutor::Status`). -/
inductive Status where
  | RUNNING
  | FINISHED
  | FINISHED_FAIL
deriving DecidableEq, Repr

/-- Conversion to `signed char`. -/
def toInt8 (x : Int) : Int := (x + 128) % 256 - 128

/-- Macro `WTERMSIG(status)` of `<sys/wait.h>`: `status & 0x7f`. -/
def WTERMSIG (status : Int) : Int := status % 128

/-- Macro `WEXITSTATUS(status)` of `<sys/wait.h>`: `(status & 0xff00) >> 8`. -/
def WEXITSTATUS (status : Int) : Int := status / 256 % 256

/-- Macro `WIFEXITED(status)` of `<sys/wait.h>`: `WTERMSIG(status) == 0`. -/
def WIFEXITED (status : Int) : Bool := WTERMSIG status == 0

/-- Macro `WIFSIGNALED(status)` of `<sys/wait.h>`:
`((signed char) ((status & 0x7f) + 1) >> 1) > 0`. -/
def WIFSIGNALED (status : Int) : Bool := decide (toInt8 (status % 128 + 1) / 2 > 0)

/-- Method `ProcessExecutor::check()`, as a function of what
`waitpid(_pid, &status, WNOHANG)` produced: the returned pid and the value of
the local `status` after the call. `int status` has no initializer and
`waitpid` writes it only when it reports a state change: when the call fails
(`return_pid = -1`) `status` is the indeterminate value the local held. -/
def ProcessExecutor.check (return_pid : Int) (status : Int) : Status × Int :=
  if return_pid = 0 then (Status.RUNNING, 0)
  else
    if WIFEXITED status then (Status.FINISHED, WEXITSTATUS status)
    else if WIFSIGNALED status then (Status.FINISHED_FAIL, WTERMSIG status)
    else (Status.FINISHED_FAIL, -1)

/-- Allocation request (`rdmalib::AllocationRequest`, declared in
`rdmalib/allocation.hpp`); `listen_address` is the text before the first NUL
of the 16-byte field. -/
structure AllocationRequest where
  listen_address : String
  listen_port : Int
  cores : Int
  hot_timeout : Int
  input_buf_size : Int
  func_buf_size : Int
deriving DecidableEq, Repr

/-- Credentials of the manager (`executor::ManagerConnection`, declared in
`common.hpp`). -/
structure ManagerConnection where
  addr : String
  port : Int
  secret : Int
  r_addr : Int
  r_key : Int
deriving DecidableEq, Repr

/-- Record `DockerSettings` of `settings.hpp`. -/
structure DockerSettings where
  use_docker : Bool
  image : String
  network : String
  ip : String
  volume : String
  registry_ip : String
  registry_port : Int
deriving DecidableEq, Repr

/-- Record `ExecutorSettings` of `settings.hpp`. -/
structure ExecutorSettings where
  repetitions : Int
  warmup_iters : Int
  recv_buffer_size : Int
  max_inline_data : Int
  pin_threads : Bool
  docker : DockerSettings
deriving DecidableEq, Repr

/-- Library function `std::to_string` on an integer: decimal digits, with a
leading minus sign for a negative value. -/
def to_string (n : Int) : String := toString n

/-- The local `executor_pin_threads` of `spawn`: the `bool` is promoted to
`int` for the comparison with `0`. -/
def executor_pin_threads (exec : ExecutorSettings) : String :=
  let pin : Int := if exec.pin_threads then 1 else 0
  if pin ≥ 0 then to_string 0 else to_string pin

/-- The array `argv` that the child created by `ProcessExecutor::spawn` hands
to `execvp`, without the terminating null pointer. -/
def ProcessExecutor.spawn_argv (request : AllocationRequest) (exec : ExecutorSettings)
    (conn : ManagerConnection) : List String :=
  let client_addr := request.listen_address
  let client_port := to_string request.listen_port
  let client_in_size := to_string request.input_buf_size
  let client_func_size := to_string request.func_buf_size
  let client_cores := to_string request.cores
  let client_timeout := to_string request.hot_timeout
  let executor_repetitions := to_string exec.repetitions
  let executor_warmups := to_string exec.warmup_iters
  let executor_recv_buf := to_string exec.recv_buffer_size
  let executor_max_inline := to_string exec.max_inline_data
  let pin_threads := executor_pin_threads exec
  let use_docker := exec.docker.use_docker
  let mgr_port := to_string conn.port
  let mgr_secret := to_string conn.secret
  let mgr_buf_addr := to_string conn.r_addr
  let mgr_buf_rkey := to_string conn.r_key
  if !use_docker then
    [ "executor",
      "-a", client_addr,
      "-p", client_port,
      "--polling-mgr", "thread",
      "-r", executor_repetitions,
      "-x", executor_recv_buf,
      "-s", client_in_size,
      "--pin-threads", pin_threads,
      "--fast", client_cores,
      "--warmup-iters", executor_warmups,
      "--max-inline-data", executor_max_inline,
      "--func-size", client_func_size,
      "--timeout", client_timeout,
      "--mgr-address", conn.addr,
      "--mgr-port", mgr_port,
      "--mgr-secret", mgr_secret,
      "--mgr-buf-addr", mgr_buf_addr,
      "--mgr-buf-rkey", mgr_buf_rkey ]
  else
    let ip_arg := "--ip=" ++ exec.docker.ip
    let volume_arg := exec.docker.volume ++ ":/opt"
    let net_arg := "--net=" ++ exec.docker.network
    let registry_port := to_string exec.docker.registry_port
    let docker_image := exec.docker.registry_ip ++ ":" ++ registry_port
      ++ "/" ++ exec.docker.image
    [ "docker_rdma_sriov", "run",
      "--rm", "-i",
      net_arg,
      ip_arg,
      "--volume", volume_arg,
      docker_image,
      "/opt/bin/executor",
      "-a", client_addr,
      "-p", client_port,
      "--polling-mgr", "thread",
      "-r", executor_repetitions,
      "-x", executor_recv_buf,
      "-s", client_in_size,
      "--pin-threads", pin_threads,
      "--fast", client_cores,
      "--warmup-iters", executor_warmups,
      "--max-inline-data", executor_max_inline,
      "--func-size", client_func_size,
      "--timeout", client_timeout,
      "--mgr-address", conn.addr,
      "--mgr-port", mgr_port,
      "--mgr-secret", mgr_secret,
      "--mgr-buf-addr", mgr_buf_addr,
      "--mgr-buf-rkey", mgr_buf_rkey ]

/-- The common arguments as section 4.8 of the specification lists them,
with `pin_spec` left open. -/
def common_args (request : AllocationRequest) (exec : ExecutorSettings)
    (conn : ManagerConnection) (pin_spec : String) : List String :=
  [ "-a", request.listen_address, "-p", to_string request.listen_port,
    "--polling-mgr", "thread", "-r", to_string exec.repetitions,
    "-x", to_string exec.recv_buffer_size, "-s", to_string request.input_buf_size,
    "--pin-threads", pin_spec, "--fast", to_string request.cores,
    "--warmup-iters", to_string exec.warmup_iters,
    "--max-inline-data", to_string exec.max_inline_data,
    "--func-size", to_string request.func_buf_size,
    "--timeout", to_string request.hot_timeout,
    "--mgr-address", conn.addr, "--mgr-port", to_string conn.port,
    "--mgr-secret", to_string conn.secret, "--mgr-buf-addr", to_string conn.r_addr,
    "--mgr-buf-rkey", to_string conn.r_key ]

/-- The arguments section 4.8 of the specification puts in front of the
common arguments for a container sandbox, up to the path of the executor
inside the container. -/
def docker_args (d : DockerSettings) : List String :=
  [ "run", "--rm", "-i", "--net=" ++ d.network, "--ip=" ++ d.ip,
    "--volume", d.volume ++ ":/opt",
    d.registry_ip ++ ":" ++ to_string d.registry_port ++ "/" ++ d.image,
    "/opt/bin/executor" ]

end rfaas.executor_manager

namespace rdmalib

/-! ## Further notions for the connection -/

/-- The batch array as section 4.3 of the specification describes it after
construction: `B` entries, entry `i` with `wr_id = i`, no scatter-gather list,
`next` pointing to entry `i + 1` and to null for the last entry, so that the
walk from entry `0` visits all of them. -/
def is_initial_batch (B : Nat) (arr : List ibv_recv_wr) : Prop :=
  arr.length = B ∧
  (∀ i, i < B → arr[i]? = some
    { wr_id := i, next := if i + 1 < B then some (i + 1) else none,
      sg_list := none, num_sge := 0 }) ∧
  walk arr arr.length (some 0) = some arr

/-- Apply a sequence of `inlining` calls, in order. -/
def run_inlining (c : Connection) (calls : List Bool) : Connection :=
  calls.foldl Connection.inlining c

/-- The flags the specification expects on a send, given the `inlining` calls
made on the connection so far and the `force_inline` argument. -/
def expected_send_flags (calls : List Bool) (force_inline : Bool) : Nat :=
  if force_inline || calls.getLast?.getD false then IBV_SEND_SIGNALED ||| IBV_SEND_INLINE
  else IBV_SEND_SIGNALED

end rdmalib

namespace rfaas.executor_manager

/-! ## Sandbox configuration -/

/-- Record `SandboxConfiguration` (declared in a version of `settings.hpp`
that is not part of the sources), with the members `settings.cpp` reads.
`env` is a `std::map`: its entries in iteration order. -/
structure SandboxConfiguration where
  devices : List String
  mounts : List String
  mount_filesystem : List String
  env : List (String × String)
  user : String
  name : String
deriving DecidableEq, Repr

/-- Scan of a `printf` format: every `%s` is replaced by the next argument. -/
def format_chars : List Char → List String → List Char
  | [], _ => []
  | [c], _ => [c]
  | c :: d :: rest, args =>
    if c = '%' ∧ d = 's' then
      match args with
      | a :: more => a.data ++ format_chars rest more
      | [] => format_chars rest []
    else c :: format_chars (d :: rest) args

/-- Modelled from the spec: `rdmalib::impl::string_format` lives in
`rdmalib/util.hpp`, which is not part of the sources; a `printf`-style
formatter, used here with `%s` only. -/
def string_format (fmt : String) (args : List String) : String :=
  String.mk (format_chars fmt.data args)

/-- The text `{user}` matched by the regular expression `\{user\}`. -/
def user_pattern : List Char := "{user}".data

/-- Library function `std::match_results::format` with the default
(ECMAScript) rules, for a regular expression without capture groups: in the
replacement text `$$` stands for `$`, `$&` and `$0` for the match, a dollar
followed by a backtick for the text before the match, a dollar followed by an
apostrophe for the text after it, `$n` for the empty capture `n`; every other
character stands for itself. -/
def format_expand (pre mat suf : List Char) : List Char → List Char
  | [] => []
  | [c] => [c]
  | c :: d :: rest =>
    if c = '$' then
      if d = '$' then '$' :: format_expand pre mat suf rest
      else if d = '&' then mat ++ format_expand pre mat suf rest
      else if d = Char.ofNat 96 then pre ++ format_expand pre mat suf rest
      else if d = Char.ofNat 39 then suf ++ format_expand pre mat suf rest
      else if d.isDigit then
        match rest with
        | [] => if d = '0' then mat else []
        | e :: rest2 =>
          if e.isDigit then
            (if d = '0' ∧ e = '0' then mat else []) ++ format_expand pre mat suf rest2
          else (if d = '0' then mat else []) ++ format_expand pre mat suf (e :: rest2)
      else c :: format_expand pre mat suf (d :: rest)
    else c :: format_expand pre mat suf (d :: rest)

/-- Library function `std::regex_replace(s, std::regex{R"(\{user\})"}, fmt)`
on the characters of `s`: every match of `{user}`, found from left to right,
is replaced by the expansion of `fmt`. `skip` counts the characters of the
current match still to be passed, `pre` is the text since the last match. -/
def regex_replace_scan (fmt : List Char) : Nat → List Char → List Char → List Char
  | _, _, [] => []
  | skip + 1, pre, _ :: rest => regex_replace_scan fmt skip pre rest
  | 0, pre, c :: rest =>
    if user_pattern.isPrefixOf (c :: rest) then
      format_expand pre user_pattern ((c :: rest).drop user_pattern.length) fmt
        ++ regex_replace_scan fmt (user_pattern.length - 1) [] rest
    else c :: regex_replace_scan fmt 0 (pre ++ [c]) rest

/-- The call `std::regex_replace(s, std::regex{R"(\{user\})"}, user)`. -/
def regex_replace_user (s user : String) : String :=
  String.mk (regex_replace_scan user.data 0 [] s.data)

/-- Replacement of every occurrence of the literal `{user}` in `s` by the text
`user`, as the specification words the substitution. -/
def substitute_scan (user : List Char) : Nat → List Char → List Char
  | _, [] => []
  | skip + 1, _ :: rest => substitute_scan user skip rest
  | 0, c :: rest =>
    if user_pattern.isPrefixOf (c :: rest) then
      user ++ substitute_scan user (user_pattern.length - 1) rest
    else c :: substitute_scan user 0 rest

/-- The specification's `{user}` substitution on strings. -/
def substitute_user (s user : String) : String :=
  String.mk (substitute_scan user.data 0 s.data)

/-- Method `SandboxConfiguration::generate_args(args, user)`: the vector `args`
after the call. -/
def SandboxConfiguration.generate_args (cfg : SandboxConfiguration) (args : List String)
    (user : String) : List String :=
  let args1 := cfg.devices.foldl
    (fun acc dev => acc ++ [string_format "--device=%s" [dev]]) args
  let args2 := cfg.mount_filesystem.foldl
    (fun acc mount =>
      let user_partition := regex_replace_user mount user
      acc ++ [string_format "--mount=type=bind,source=%s,destination=%s"
        [user_partition, user_partition]]) args1
  let args3 := cfg.mounts.foldl
    (fun acc mount =>
      acc ++ [string_format "--mount=type=bind,source=%s,destination=%s" [mount, mount]]) args2
  cfg.env.foldl
    (fun acc kv => acc ++ ["-e"] ++ [string_format "%s=%s" [kv.1, kv.2]]) args3

/-- What the specification says `generate_args` appends, with the literal
substitution of `{user}`. -/
def expected_sandbox_args (cfg : SandboxConfiguration) (user : String) : List String :=
  cfg.devices.map (fun d => "--device=" ++ d)
  ++ cfg.mount_filesystem.map (fun m =>
      "--mount=type=bind,source=" ++ substitute_user m user
        ++ ",destination=" ++ substitute_user m user)
  ++ cfg.mounts.map (fun m => "--mount=type=bind,source=" ++ m ++ ",destination=" ++ m)
  ++ cfg.env.flatMap (fun kv => ["-e", kv.1 ++ "=" ++ kv.2])

/-- A sandbox configuration with one entry of each kind. -/
def sample_sandbox : SandboxConfiguration :=
  { devices := ["/dev/infiniband"], mounts := ["/scratch"],
    mount_filesystem := ["/home/{user}"], env := [("A", "1")],
    user := "alice", name := "sandbox" }

end rfaas.executor_manager

/-! # Theorems -/

namespace rdmalib

/-! ## Machine integers -/

theorem toInt32_of_isInt32 (x : Int) (h : isInt32 x) : toInt32 x = x := by
  unfold toInt32
  obtain ⟨h0, h1⟩ := h
  rw [Int.emod_eq_of_lt (by omega) (by omega)]
  omega

theorem toInt32_toUInt64 (x : Int) (h : isInt32 x) : toInt32 (toUInt64 x) = x := by
  unfold toInt32 toUInt64
  obtain ⟨h0, h1⟩ := h
  have : ((x % 18446744073709551616).toNat : Int) = x % 18446744073709551616 :=
    Int.toNat_of_nonneg (Int.emod_nonneg _ (by decide))
  rw [this]
  omega

/-! ## The batch array -/

theorem set_next_length (arr : List ibv_recv_wr) (i : Nat) (p : Option Nat) :
    (set_next arr i p).length = arr.length := by
  unfold set_next
  cases h : arr[i]? <;> simp

theorem set_next_getElem? (arr : List ibv_recv_wr) (i j : Nat) (p : Option Nat) :
    (set_next arr i p)[j]? =
      if i = j then (arr[j]?).map (fun w => { w with next := p }) else arr[j]? := by
  unfold set_next
  cases h : arr[i]? with
  | none =>
    by_cases hij : i = j
    · subst hij; simp [h]
    · simp [hij]
  | some w =>
    by_cases hij : i = j
    · subst hij
      have hlt : i < arr.length := by
        rcases List.getElem?_eq_some.mp h with ⟨hlt, _⟩
        exact hlt
      simp [h, List.getElem?_set_self, hlt]
    · simp [hij, List.getElem?_set_ne hij]

theorem set_next_restore (arr : List ibv_recv_wr) (i : Nat) (p q : Option Nat)
    (h : ∀ w, arr[i]? = some w → w.next = q) :
    set_next (set_next arr i p) i q = arr := by
  apply List.ext_getElem?
  intro j
  rw [set_next_getElem?, set_next_getElem?]
  by_cases hij : i = j
  · subst hij
    simp only [if_true]
    cases hw : arr[i]? with
    | none => simp
    | some w =>
      have := h w hw
      cases w
      simp_all
  · simp [hij]

theorem init_batch_loop_getElem? (rbatch i : Nat) :
    (init_batch_loop rbatch)[i]? =
      if i < rbatch then
        some { wr_id := i, next := some (i + 1), sg_list := none, num_sge := 0 }
      else none := by
  unfold init_batch_loop
  by_cases h : i < rbatch
  · simp [h, List.getElem?_range]
  · simp [h]
    omega

theorem init_batch_getElem? (rbatch i : Nat) :
    (init_batch rbatch)[i]? =
      if i < rbatch then
        some { wr_id := i, next := if i + 1 < rbatch then some (i + 1) else none,
               sg_list := none, num_sge := 0 }
      else none := by
  unfold init_batch
  rw [set_next_getElem?, init_batch_loop_getElem?]
  by_cases h : i < rbatch
  · by_cases h2 : rbatch - 1 = i
    · have : ¬ (i + 1 < rbatch) := by omega
      simp [h, h2, this]
    · have : i + 1 < rbatch := by omega
      simp [h, h2, this]
  · by_cases h2 : rbatch - 1 = i
    · simp [h, h2]
    · simp [h, h2]

theorem init_batch_length (rbatch : Nat) : (init_batch rbatch).length = rbatch := by
  unfold init_batch
  rw [set_next_length]
  simp [init_batch_loop]

theorem new_chained (rbatch : Nat) (passive : Bool) (h : 0 < rbatch) :
    (Connection.new rbatch passive).chained := by
  refine ⟨h, ?_, ?_⟩
  · simp [Connection.new, Connection.inlining, init_batch_length]
  · intro i w hw
    simp only [Connection.new, Connection.inlining] at hw ⊢
    simp only [Bool.false_eq_true, if_false] at hw ⊢
    rw [init_batch_getElem?] at hw
    by_cases hi : i < rbatch
    · simp only [hi, if_true, Option.some.injEq] at hw
      subst hw
      rfl
    · simp [hi] at hw

theorem move_chained (obj : Connection) (flags : Nat) (h : 0 < obj._rbatch) :
    (obj.move flags).1.chained := by
  refine ⟨h, init_batch_length _, ?_⟩
  intro i w hw
  simp only [Connection.move] at hw ⊢
  rw [init_batch_getElem?] at hw
  by_cases hi : i < obj._rbatch
  · simp only [hi, if_true, Option.some.injEq] at hw
    subst hw
    rfl
  · simp [hi] at hw

theorem batched_recv_step_getElem? (sge : ScatterGatherElement) (offset : Nat)
    (arr : List ibv_recv_wr) (i j : Nat) :
    ∃ f : ibv_recv_wr → ibv_recv_wr, (∀ w, (f w).next = w.next) ∧
      (batched_recv_step sge offset arr i)[j]? = (arr[j]?).map f := by
  unfold batched_recv_step
  dsimp only
  cases h : arr[i]? with
  | none => exact ⟨fun w => w, fun _ => rfl, by simp⟩
  | some w0 =>
    by_cases hij : i = j
    · subst hij
      have hlt : i < arr.length := (List.getElem?_eq_some.mp h).1
      refine ⟨fun w => { w with
        sg_list := some (ScatterGatherElement.mk
          (sge._sges.map (fun sg => { sg with addr := sg.addr + i * offset }))).array,
        num_sge := toInt32 (ScatterGatherElement.mk
          (sge._sges.map (fun sg => { sg with addr := sg.addr + i * offset }))).size },
        fun _ => rfl, ?_⟩
      simp [List.getElem?_set_self hlt, h]
    · exact ⟨fun w => w, fun _ => rfl, by simp [List.getElem?_set_ne hij]⟩

theorem batched_recv_step_length (sge : ScatterGatherElement) (offset : Nat)
    (arr : List ibv_recv_wr) (i : Nat) :
    (batched_recv_step sge offset arr i).length = arr.length := by
  unfold batched_recv_step
  dsimp only
  cases h : arr[i]? <;> simp

theorem batched_recv_fold_chained (sge : ScatterGatherElement) (offset B : Nat)
    (idx : List Nat) :
    ∀ arr : List ibv_recv_wr, arr.length = B →
      (∀ i w, arr[i]? = some w → w.next = if i + 1 < B then some (i + 1) else none) →
      (idx.foldl (batched_recv_step sge offset) arr).length = B ∧
      (∀ i w, (idx.foldl (batched_recv_step sge offset) arr)[i]? = some w →
        w.next = if i + 1 < B then some (i + 1) else none) := by
  induction idx with
  | nil => intro arr h1 h2; exact ⟨h1, h2⟩
  | cons k idx ih =>
    intro arr h1 h2
    apply ih
    · rw [batched_recv_step_length, h1]
    · intro i w hw
      obtain ⟨f, hf, hget⟩ := batched_recv_step_getElem? sge offset arr k i
      rw [hget] at hw
      cases h0 : arr[i]? with
      | none => simp [h0] at hw
      | some w0 =>
        simp only [h0, Option.map_some', Option.some.injEq] at hw
        rw [← hw, hf, h2 i w0 h0]

theorem initialize_batched_recv_chained (c : Connection) (sge : ScatterGatherElement)
    (offset : Nat) (h : c.chained) : (c.initialize_batched_recv sge offset).chained := by
  obtain ⟨hpos, hlen, hnext⟩ := h
  obtain ⟨a, b⟩ := batched_recv_fold_chained sge offset c._rbatch (List.range c._rbatch)
    c._batch_wrs hlen hnext
  exact ⟨hpos, a, b⟩

theorem sample_conn_chained (passive : Bool) : (sample_conn passive).chained := by
  have h := new_chained 4 passive (by decide)
  exact h

/-! ## The receive loop -/

theorem post_recv_loop_spec (qp : Option Nat) (mem : List ibv_recv_wr) :
    ∀ (n : Nat) (ret0 : Int) (v : Verbs),
      ∃ new : List RecvPost,
        (post_recv_loop qp mem n ret0 v).1.recv_log = v.recv_log ++ new ∧
        (post_recv_loop qp mem n ret0 v).1.send_log = v.send_log ∧
        (post_recv_loop qp mem n ret0 v).1.destroy_log = v.destroy_log ∧
        (∀ p ∈ new, p.qp = qp ∧ p.mem = mem ∧ p.head = 0) ∧
        (n = 0 → new = [] ∧ (post_recv_loop qp mem n ret0 v).2 = ret0) ∧
        (0 < n → (post_recv_loop qp mem n ret0 v).2 = 0 →
          new.length = n ∧ ∀ p ∈ new, p.ret = 0) ∧
        (0 < n → (post_recv_loop qp mem n ret0 v).2 ≠ 0 →
          ∃ init, new = init ++ [⟨qp, mem, 0, (post_recv_loop qp mem n ret0 v).2⟩] ∧
            init.length < n ∧ ∀ p ∈ init, p.ret = 0) := by
  intro n
  induction n with
  | zero =>
    intro ret0 v
    exact ⟨[], by simp [post_recv_loop]⟩
  | succ n ih =>
    intro ret0 v
    by_cases hr : v.rets.headD 0 = 0
    · obtain ⟨new, h1, h2, h3, h4, h5, h6, h7⟩ := ih (v.rets.headD 0)
        (ibv_post_recv v qp mem 0).1
      have hstep : post_recv_loop qp mem (n + 1) ret0 v =
          post_recv_loop qp mem n (v.rets.headD 0) (ibv_post_recv v qp mem 0).1 := by
        simp only [post_recv_loop, ibv_post_recv, hr, ne_eq, not_true_eq_false, if_false]
      rw [hstep]
      refine ⟨⟨qp, mem, 0, 0⟩ :: new, ?_, ?_, ?_, ?_, ?_, ?_, ?_⟩
      · rw [h1]; simp only [ibv_post_recv, hr]; simp
      · rw [h2]; simp [ibv_post_recv]
      · rw [h3]; simp [ibv_post_recv]
      · intro p hp
        rcases List.mem_cons.mp hp with rfl | hp
        · simp
        · exact h4 p hp
      · intro h; omega
      · intro _ hz
        rcases Nat.eq_zero_or_pos n with hn | hn
        · obtain ⟨hnew, _⟩ := h5 hn
          subst hn
          simp [hnew]
        · obtain ⟨hl, hall⟩ := h6 hn hz
          refine ⟨by simp [hl], ?_⟩
          intro p hp
          rcases List.mem_cons.mp hp with rfl | hp
          · rfl
          · exact hall p hp
      · intro _ hnz
        rcases Nat.eq_zero_or_pos n with hn | hn
        · obtain ⟨_, hret⟩ := h5 hn
          exact absurd (hret.trans hr) hnz
        · obtain ⟨init, hi1, hi2, hi3⟩ := h7 hn hnz
          refine ⟨⟨qp, mem, 0, 0⟩ :: init, by simp [hi1], by simp; omega, ?_⟩
          intro p hp
          rcases List.mem_cons.mp hp with rfl | hp
          · rfl
          · exact hi3 p hp
    · have hstep : post_recv_loop qp mem (n + 1) ret0 v =
          ((ibv_post_recv v qp mem 0).1, v.rets.headD 0) := by
        simp only [post_recv_loop, ibv_post_recv, hr, ne_eq, not_false_eq_true, if_true]
      rw [hstep]
      refine ⟨[⟨qp, mem, 0, v.rets.headD 0⟩], ?_, ?_, ?_, ?_, ?_, ?_, ?_⟩
      · simp [ibv_post_recv]
      · simp [ibv_post_recv]
      · simp [ibv_post_recv]
      · intro p hp
        simp at hp
        subst hp
        simp
      · intro h; omega
      · intro _ hz
        exact absurd hz hr
      · intro _ _
        exact ⟨[], by simp, by simp, by simp⟩

theorem eq_replicate_of_fields (qp : Option Nat) (mem : List ibv_recv_wr)
    (l : List RecvPost) (h1 : ∀ p ∈ l, p.qp = qp ∧ p.mem = mem ∧ p.head = 0)
    (h2 : ∀ p ∈ l, p.ret = 0) : l = List.replicate l.length ⟨qp, mem, 0, 0⟩ := by
  apply List.eq_replicate_of_mem
  intro p hp
  obtain ⟨a, b, c⟩ := h1 p hp
  have d := h2 p hp
  cases p
  simp_all

theorem batched_verbs (c : Connection) (v : Verbs) (count : Int) :
    (c.post_batched_empty_recv v count).verbs =
      if (post_recv_loop c._qp c._batch_wrs (Int.tdiv count c._rbatch).toNat 0 v).2 = 0 ∧
          Int.tmod count c._rbatch > 0 then
        (ibv_post_recv (post_recv_loop c._qp c._batch_wrs (Int.tdiv count c._rbatch).toNat 0 v).1
          c._qp (set_next c._batch_wrs (Int.tmod count c._rbatch - 1).toNat none) 0).1
      else (post_recv_loop c._qp c._batch_wrs (Int.tdiv count c._rbatch).toNat 0 v).1 := by
  unfold Connection.post_batched_empty_recv
  dsimp only
  split_ifs <;> rfl

theorem batched_ret (c : Connection) (v : Verbs) (count : Int) :
    (c.post_batched_empty_recv v count).ret =
      if (post_recv_loop c._qp c._batch_wrs (Int.tdiv count c._rbatch).toNat 0 v).2 = 0 ∧
          Int.tmod count c._rbatch > 0 then
        (if (post_recv_loop c._qp c._batch_wrs
              (Int.tdiv count c._rbatch).toNat 0 v).1.rets.headD 0 ≠ 0 then -1 else count)
      else
        (if (post_recv_loop c._qp c._batch_wrs (Int.tdiv count c._rbatch).toNat 0 v).2 ≠ 0
          then -1 else count) := by
  unfold Connection.post_batched_empty_recv
  dsimp only
  split_ifs <;> first | rfl | simp_all [ibv_post_recv]

theorem batched_outcome (c : Connection) (v : Verbs) (count : Int) :
    ∃ new : List RecvPost,
      (c.post_batched_empty_recv v count).verbs.recv_log = v.recv_log ++ new ∧
      (c.post_batched_empty_recv v count).verbs.send_log = v.send_log ∧
      (c.post_batched_empty_recv v count).verbs.destroy_log = v.destroy_log ∧
      ((∃ p ∈ new, p.ret ≠ 0) → (c.post_batched_empty_recv v count).ret = -1) ∧
      ((∀ p ∈ new, p.ret = 0) →
        (c.post_batched_empty_recv v count).ret = count ∧
        new = List.replicate (Int.tdiv count c._rbatch).toNat ⟨c._qp, c._batch_wrs, 0, 0⟩ ++
          (if Int.tmod count c._rbatch > 0 then
            [⟨c._qp, set_next c._batch_wrs (Int.tmod count c._rbatch - 1).toNat none, 0, 0⟩]
           else [])) := by
  obtain ⟨new, h1, h2, h3, h4, h5, h6, h7⟩ :=
    post_recv_loop_spec c._qp c._batch_wrs (Int.tdiv count c._rbatch).toNat 0 v
  rw [batched_verbs, batched_ret]
  generalize hL : post_recv_loop c._qp c._batch_wrs (Int.tdiv count c._rbatch).toNat 0 v = L at *
  generalize hn : (Int.tdiv count c._rbatch).toNat = n at *
  -- when the loop ends with `ret = 0`, every post it made succeeded
  have hzero : L.2 = 0 → new = List.replicate n ⟨c._qp, c._batch_wrs, 0, 0⟩ := by
    intro hz
    rcases Nat.eq_zero_or_pos n with h0 | hpos
    · rw [(h5 h0).1, h0]; rfl
    · obtain ⟨hl, hall⟩ := h6 hpos hz
      rw [← hl]
      exact eq_replicate_of_fields _ _ _ h4 hall
  have hnonzero : L.2 ≠ 0 → ∃ p ∈ new, p.ret ≠ 0 := by
    intro hnz
    rcases Nat.eq_zero_or_pos n with h0 | hpos
    · exact absurd (h5 h0).2 hnz
    · obtain ⟨init, hi, _, _⟩ := h7 hpos hnz
      exact ⟨⟨c._qp, c._batch_wrs, 0, L.2⟩, by simp [hi], hnz⟩
  by_cases hcond : L.2 = 0 ∧ Int.tmod count c._rbatch > 0
  · rw [if_pos hcond, if_pos hcond]
    refine ⟨new ++ [⟨c._qp, set_next c._batch_wrs (Int.tmod count c._rbatch - 1).toNat none, 0,
      L.1.rets.headD 0⟩], ?_, ?_, ?_, ?_, ?_⟩
    · simp only [ibv_post_recv, h1, List.append_assoc]
    · simp only [ibv_post_recv, h2]
    · simp only [ibv_post_recv, h3]
    · rintro ⟨p, hp, hpr⟩
      rcases List.mem_append.mp hp with hp | hp
      · have := hzero hcond.1
        rw [this] at hp
        have := List.eq_of_mem_replicate hp
        subst this
        exact absurd rfl hpr
      · simp only [List.mem_singleton] at hp
        subst hp
        rw [if_pos hpr]
    · intro hall
      have hlast : L.1.rets.headD 0 = 0 := by
        have := hall ⟨c._qp, set_next c._batch_wrs (Int.tmod count c._rbatch - 1).toNat none, 0,
          L.1.rets.headD 0⟩ (by simp)
        exact this
      refine ⟨by rw [if_neg (by simpa using hlast)], ?_⟩
      rw [if_pos hcond.2, hlast, hzero hcond.1]
  · rw [if_neg hcond, if_neg hcond]
    refine ⟨new, h1, h2, h3, ?_, ?_⟩
    · rintro ⟨p, hp, hpr⟩
      by_cases hz : L.2 = 0
      · have := hzero hz
        rw [this] at hp
        have := List.eq_of_mem_replicate hp
        subst this
        exact absurd rfl hpr
      · rw [if_pos hz]
    · intro hall
      have hz : L.2 = 0 := by
        by_contra hnz
        obtain ⟨p, hp, hpr⟩ := hnonzero hnz
        exact hpr (hall p hp)
      have hrem : ¬ Int.tmod count c._rbatch > 0 := fun h => hcond ⟨hz, h⟩
      refine ⟨by rw [if_neg (by simpa using hz)], ?_⟩
      rw [if_neg hrem, hzero hz]
      simp

theorem batched_conn (c : Connection) (v : Verbs) (count : Int) (h : c.chained) :
    (c.post_batched_empty_recv v count).conn = c := by
  obtain ⟨hpos, hlen, hnext⟩ := h
  have hrem_lt : Int.tmod count c._rbatch < c._rbatch :=
    Int.tmod_lt_of_pos count (by exact_mod_cast hpos)
  have key : ∀ (hr : Int.tmod count c._rbatch > 0),
      set_next (set_next c._batch_wrs (Int.tmod count c._rbatch - 1).toNat none)
        (Int.tmod count c._rbatch - 1).toNat (some (Int.tmod count c._rbatch).toNat)
        = c._batch_wrs := by
    intro hr
    apply set_next_restore
    intro w hw
    rw [hnext _ w hw]
    have h1 : (Int.tmod count c._rbatch - 1).toNat + 1 = (Int.tmod count c._rbatch).toNat := by
      omega
    have h2 : (Int.tmod count c._rbatch - 1).toNat + 1 < c._rbatch := by omega
    rw [if_pos h2, h1]
  unfold Connection.post_batched_empty_recv
  dsimp only
  split_ifs with h1 h2 h3
  · rw [key h1.2]
  · rw [key h1.2]
  · rfl
  · rfl

theorem batched_conn_fields (c : Connection) (v : Verbs) (count : Int) :
    (c.post_batched_empty_recv v count).conn._id = c._id ∧
    (c.post_batched_empty_recv v count).conn._qp = c._qp ∧
    (c.post_batched_empty_recv v count).conn._passive = c._passive ∧
    (c.post_batched_empty_recv v count).conn._req_count = c._req_count ∧
    (c.post_batched_empty_recv v count).conn._send_flags = c._send_flags ∧
    (c.post_batched_empty_recv v count).conn._rbatch = c._rbatch := by
  unfold Connection.post_batched_empty_recv
  dsimp only
  split_ifs <;> exact ⟨rfl, rfl, rfl, rfl, rfl, rfl⟩

theorem batched_failed (c : Connection) (v : Verbs) (count : Int)
    (h : post_failed v (c.post_batched_empty_recv v count).verbs) :
    (c.post_batched_empty_recv v count).ret = -1 := by
  obtain ⟨new, h1, h2, _, h4, _⟩ := batched_outcome c v count
  rcases h with ⟨p, hp, hpr⟩ | ⟨p, hp, hpr⟩
  · simp [new_send, h2] at hp
  · simp only [new_recv, h1, List.drop_left] at hp
    exact h4 ⟨p, hp, hpr⟩

/-! ## Chains seen by the library -/

theorem walk_none (arr : List ibv_recv_wr) (fuel : Nat) : walk arr fuel none = some [] := by
  cases fuel <;> rfl

theorem walk_chain (arr : List ibv_recv_wr) (k : Nat) (hk : k ≤ arr.length)
    (hnext : ∀ i w, arr[i]? = some w → i < k →
      w.next = if i + 1 < k then some (i + 1) else none) :
    ∀ (d i fuel : Nat), i + d = k → 0 < d → d ≤ fuel →
      walk arr fuel (some i) = some ((arr.take k).drop i) := by
  intro d
  induction d with
  | zero => intro i fuel _ h; omega
  | succ d ih =>
    intro i fuel hik _ hfuel
    obtain ⟨f, rfl⟩ : ∃ f, fuel = f + 1 := ⟨fuel - 1, by omega⟩
    have hi : i < arr.length := by omega
    have hget : arr[i]? = some arr[i] := List.getElem?_eq_getElem hi
    have hn := hnext i arr[i] hget (by omega)
    have hdrop : (arr.take k).drop i = arr[i] :: (arr.take k).drop (i + 1) := by
      have hlt : i < (arr.take k).length := by simp; omega
      rw [List.drop_eq_getElem_cons hlt]
      simp
    rw [walk, hget]
    simp only
    rw [hn, hdrop]
    by_cases hlast : i + 1 < k
    · rw [if_pos hlast, ih (i + 1) f (by omega) (by omega) (by omega)]
      rfl
    · rw [if_neg hlast]
      have : (arr.take k).drop (i + 1) = [] := by
        apply List.drop_eq_nil_of_le
        simp; omega
      rw [this, walk_none]
      rfl

theorem chain_full (qp : Option Nat) (arr : List ibv_recv_wr) (r : Int) (B : Nat)
    (hB : 0 < B) (hlen : arr.length = B)
    (hnext : ∀ i w, arr[i]? = some w → w.next = if i + 1 < B then some (i + 1) else none) :
    RecvPost.chain ⟨qp, arr, 0, r⟩ = some arr := by
  unfold RecvPost.chain
  simp only
  rw [walk_chain arr B (by omega) (fun i w hw _ => hnext i w hw) B 0 arr.length
    (by omega) hB (by omega)]
  simp [← hlen]

theorem chain_partial (qp : Option Nat) (arr : List ibv_recv_wr) (r : Int) (B k : Nat)
    (hk : 0 < k) (hkB : k ≤ B) (hlen : arr.length = B)
    (hnext : ∀ i w, arr[i]? = some w → w.next = if i + 1 < B then some (i + 1) else none) :
    RecvPost.chain ⟨qp, set_next arr (k - 1) none, 0, r⟩ = some (partial_chain arr k) := by
  unfold RecvPost.chain partial_chain
  simp only
  rw [walk_chain (set_next arr (k - 1) none) k (by rw [set_next_length]; omega) ?_ k 0 _
    (by omega) hk (by rw [set_next_length]; omega)]
  · simp
  · intro i w hw hik
    rw [set_next_getElem?] at hw
    by_cases hi : k - 1 = i
    · rw [if_pos hi] at hw
      have hlast : ¬ (i + 1 < k) := by omega
      rw [if_neg hlast]
      cases h0 : arr[i]? with
      | none => simp [h0] at hw
      | some w0 =>
        simp only [h0, Option.map_some', Option.some.injEq] at hw
        rw [← hw]
    · rw [if_neg hi] at hw
      rw [hnext i w hw]
      have h1 : i + 1 < k := by omega
      have h2 : i + 1 < B := by omega
      rw [if_pos h1, if_pos h2]

theorem partial_chain_length (arr : List ibv_recv_wr) (k : Nat) (hk : k ≤ arr.length) :
    (partial_chain arr k).length = k := by
  unfold partial_chain
  simp [set_next_length, hk]

theorem posted_wrs_append (l1 l2 : List RecvPost) :
    posted_wrs (l1 ++ l2) = posted_wrs l1 + posted_wrs l2 := by
  simp [posted_wrs]

theorem posted_wrs_replicate (n : Nat) (p : RecvPost) (ch : List ibv_recv_wr)
    (h : p.chain = some ch) : posted_wrs (List.replicate n p) = n * ch.length := by
  simp [posted_wrs, h]

/-! ## Batched empty receives -/

/-- Claim C1. On a connection whose batch array is the chain built by the
constructor, `post_batched_empty_recv(count)` leaves the batch array exactly
as it was, for every count and whatever the library answers to the posts:
every entry keeps `wr_id`, `sg_list`, `num_sge` and `next`, so entry `i` still
points to entry `i + 1` and the last entry to null. -/
theorem post_batched_empty_recv_restores_batch (c : Connection) (v : Verbs) (count : Int) (h : c.chained) :
    (c.post_batched_empty_recv v count).conn._batch_wrs = c._batch_wrs ∧
    (c.post_batched_empty_recv v count).conn.chained := by
  rw [batched_conn c v count h]
  exact ⟨rfl, h⟩

/-- Claim C1 at a concrete input: a batch of four, six receives asked for, the
fix-up post failing with code 12. -/
theorem post_batched_empty_recv_restores_batch_witness :
    (sample_conn true).chained ∧
    ((sample_conn true).post_batched_empty_recv (fresh_verbs [0, 12]) 6).conn._batch_wrs
      = (sample_conn true)._batch_wrs ∧
    ((sample_conn true).post_batched_empty_recv (fresh_verbs [0, 12]) 6).ret = -1 :=
  ⟨sample_conn_chained true,
   (post_batched_empty_recv_restores_batch (sample_conn true) (fresh_verbs [0, 12]) 6 (sample_conn_chained true)).1,
   by decide⟩

/-- Claim C2. When every post made by `post_batched_empty_recv(count)`
succeeds and `count ≥ 0`, the call returns `count`; the posts it makes are
`count / _rbatch` posts of the full chain (all `_rbatch` entries) followed,
when `count % _rbatch > 0`, by one post of the chain of the first
`count % _rbatch` entries; the work requests posted number `count` in all;
and for `count = 0` there is no post and the result is `0`. -/
theorem post_batched_empty_recv_posts_count (c : Connection) (v : Verbs) (count : Int)
    (hc : c.chained) (hcount : 0 ≤ count)
    (hok : ∀ p ∈ new_recv v (c.post_batched_empty_recv v count).verbs, p.ret = 0) :
    (c.post_batched_empty_recv v count).ret = count ∧
    (new_recv v (c.post_batched_empty_recv v count).verbs).map RecvPost.chain =
      List.replicate (count / c._rbatch).toNat (some c._batch_wrs) ++
        (if 0 < count % c._rbatch then
          [some (partial_chain c._batch_wrs (count % c._rbatch).toNat)] else []) ∧
    c._batch_wrs.length = c._rbatch ∧
    (partial_chain c._batch_wrs (count % c._rbatch).toNat).length = (count % c._rbatch).toNat ∧
    (posted_wrs (new_recv v (c.post_batched_empty_recv v count).verbs) : Int) = count ∧
    (count = 0 → new_recv v (c.post_batched_empty_recv v count).verbs = [] ∧
      (c.post_batched_empty_recv v count).ret = 0) := by
  obtain ⟨hpos, hlen, hnext⟩ := hc
  obtain ⟨new, h1, _, _, _, h5⟩ := batched_outcome c v count
  have hnew : new_recv v (c.post_batched_empty_recv v count).verbs = new := by
    unfold new_recv
    rw [h1]
    simp
  rw [hnew] at hok ⊢
  obtain ⟨hret, hshape⟩ := h5 hok
  have hBpos : (0 : Int) < c._rbatch := by exact_mod_cast hpos
  have hdiv : Int.tdiv count c._rbatch = count / c._rbatch :=
    Int.tdiv_eq_ediv hcount (le_of_lt hBpos)
  have hmod : Int.tmod count c._rbatch = count % c._rbatch :=
    Int.tmod_eq_emod hcount (le_of_lt hBpos)
  rw [hdiv, hmod] at hshape
  have hmod_nonneg : 0 ≤ count % (c._rbatch : Int) := Int.emod_nonneg _ (ne_of_gt hBpos)
  have hmod_lt : count % (c._rbatch : Int) < c._rbatch := Int.emod_lt_of_pos _ hBpos
  have hdiv_nonneg : 0 ≤ count / (c._rbatch : Int) := Int.ediv_nonneg hcount (le_of_lt hBpos)
  have hfull : ∀ r, RecvPost.chain ⟨c._qp, c._batch_wrs, 0, r⟩ = some c._batch_wrs :=
    fun r => chain_full c._qp c._batch_wrs r c._rbatch hpos hlen hnext
  have hpart : 0 < count % (c._rbatch : Int) →
      RecvPost.chain ⟨c._qp, set_next c._batch_wrs (count % c._rbatch - 1).toNat none, 0, 0⟩ =
        some (partial_chain c._batch_wrs (count % c._rbatch).toNat) := by
    intro h
    have e : (count % (c._rbatch : Int) - 1).toNat = (count % (c._rbatch : Int)).toNat - 1 := by
      omega
    rw [e]
    exact chain_partial c._qp c._batch_wrs 0 c._rbatch _ (by omega) (by omega) hlen hnext
  have hplen : (partial_chain c._batch_wrs (count % c._rbatch).toNat).length =
      (count % c._rbatch).toNat := partial_chain_length _ _ (by omega)
  refine ⟨hret, ?_, hlen, hplen, ?_, ?_⟩
  · rw [hshape]
    by_cases h : 0 < count % (c._rbatch : Int)
    · simp only [gt_iff_lt, h, if_true, List.map_append, List.map_replicate, List.map_cons,
        List.map_nil, hfull, hpart h]
    · simp only [gt_iff_lt, h, if_false, List.map_append, List.map_replicate, List.map_nil,
        hfull]
  · rw [hshape, posted_wrs_append, posted_wrs_replicate _ _ _ (hfull 0), hlen]
    have hsum := Int.ediv_add_emod count c._rbatch
    by_cases h : 0 < count % (c._rbatch : Int)
    · have : posted_wrs
          [⟨c._qp, set_next c._batch_wrs (count % c._rbatch - 1).toNat none, 0, 0⟩] =
          (count % c._rbatch).toNat := by
        simp only [posted_wrs, List.map_cons, List.map_nil, List.sum_cons, List.sum_nil,
          add_zero, hpart h, hplen]
      rw [if_pos h, this]
      push_cast
      rw [Int.toNat_of_nonneg hdiv_nonneg, Int.toNat_of_nonneg hmod_nonneg]
      linarith [mul_comm (count / (c._rbatch : Int)) (c._rbatch : Int)]
    · rw [if_neg h]
      have h0 : count % (c._rbatch : Int) = 0 := by omega
      simp only [posted_wrs, List.map_nil, List.sum_nil, add_zero]
      push_cast
      rw [Int.toNat_of_nonneg hdiv_nonneg]
      rw [h0] at hsum
      linarith [mul_comm (count / (c._rbatch : Int)) (c._rbatch : Int)]
  · intro h0
    subst h0
    rw [hshape]
    simp [hret]

/-- Claim C2 at a concrete input: a batch of four and six receives give one
full chain and one chain of two. -/
theorem post_batched_empty_recv_posts_count_witness :
    (new_recv (fresh_verbs []) ((sample_conn false).post_batched_empty_recv (fresh_verbs []) 6).verbs).map
        RecvPost.chain =
      [some (sample_conn false)._batch_wrs, some (partial_chain (sample_conn false)._batch_wrs 2)] ∧
    ((sample_conn false).post_batched_empty_recv (fresh_verbs []) 6).ret = 6 :=
  have h := post_batched_empty_recv_posts_count (sample_conn false) (fresh_verbs []) 6 (sample_conn_chained false) (by decide)
    (by decide)
  ⟨h.2.1, h.1⟩

/-! ## Single posts -/

theorem new_send_post (v : Verbs) (qp : Option Nat) (wr : ibv_send_wr) :
    new_send v (ibv_post_send v qp wr).1 = [⟨qp, wr, v.rets.headD 0⟩] := by
  show List.drop v.send_log.length (v.send_log ++ [⟨qp, wr, v.rets.headD 0⟩]) = _
  rw [List.drop_left]

theorem new_recv_post_send (v : Verbs) (qp : Option Nat) (wr : ibv_send_wr) :
    new_recv v (ibv_post_send v qp wr).1 = [] := by
  show List.drop v.recv_log.length v.recv_log = _
  simp

theorem ibv_post_send_failed (v : Verbs) (qp : Option Nat) (wr : ibv_send_wr)
    (h : post_failed v (ibv_post_send v qp wr).1) : v.rets.headD 0 ≠ 0 := by
  unfold post_failed at h
  rw [new_send_post, new_recv_post_send] at h
  rcases h with ⟨p, hp, hpr⟩ | ⟨p, hp, _⟩
  · rw [List.mem_singleton] at hp
    subst hp
    exact hpr
  · simp at hp

theorem post_send_verbs (c : Connection) (v : Verbs) (elems : ScatterGatherElement)
    (id : Int) (fi : Bool) :
    (c.post_send v elems id fi).verbs =
      (ibv_post_send v c._qp (c.post_send_wr elems id fi)).1 := by
  unfold Connection.post_send
  dsimp only [ibv_post_send]
  split_ifs <;> rfl

theorem post_send_ret (c : Connection) (v : Verbs) (elems : ScatterGatherElement)
    (id : Int) (fi : Bool) :
    (c.post_send v elems id fi).ret =
      if v.rets.headD 0 ≠ 0 then -1
      else toInt32 ((if id = -1 then int32_incr c._req_count else c._req_count) - 1) := by
  unfold Connection.post_send
  dsimp only [ibv_post_send]
  split_ifs <;> rfl

theorem post_send_conn (c : Connection) (v : Verbs) (elems : ScatterGatherElement)
    (id : Int) (fi : Bool) :
    (c.post_send v elems id fi).conn =
      if id = -1 then { c with _req_count := int32_incr c._req_count } else c := by
  unfold Connection.post_send
  dsimp only [ibv_post_send]
  split_ifs <;> rfl

theorem post_send_failed (c : Connection) (v : Verbs) (elems : ScatterGatherElement)
    (id : Int) (fi : Bool) (h : post_failed v (c.post_send v elems id fi).verbs) :
    (c.post_send v elems id fi).ret = -1 := by
  rw [post_send_verbs] at h
  rw [post_send_ret, if_pos (ibv_post_send_failed _ _ _ h)]

theorem post_write_aux_verbs (c : Connection) (v : Verbs) (elems : ScatterGatherElement)
    (wr : ibv_send_wr) (fi : Bool) :
    (c._post_write v elems wr fi).verbs =
      (ibv_post_send v c._qp (c._post_write_wr elems wr fi)).1 := by
  unfold Connection._post_write
  dsimp only [ibv_post_send]
  split_ifs <;> rfl

theorem post_write_aux_ret (c : Connection) (v : Verbs) (elems : ScatterGatherElement)
    (wr : ibv_send_wr) (fi : Bool) :
    (c._post_write v elems wr fi).ret =
      if v.rets.headD 0 ≠ 0 then -1 else toInt32 (int32_incr c._req_count - 1) := by
  unfold Connection._post_write
  dsimp only [ibv_post_send]
  split_ifs <;> rfl

theorem post_write_aux_conn (c : Connection) (v : Verbs) (elems : ScatterGatherElement)
    (wr : ibv_send_wr) (fi : Bool) :
    (c._post_write v elems wr fi).conn = { c with _req_count := int32_incr c._req_count } := by
  unfold Connection._post_write
  dsimp only [ibv_post_send]
  split_ifs <;> rfl

theorem post_write_aux_failed (c : Connection) (v : Verbs) (elems : ScatterGatherElement)
    (wr : ibv_send_wr) (fi : Bool) (h : post_failed v (c._post_write v elems wr fi).verbs) :
    (c._post_write v elems wr fi).ret = -1 := by
  rw [post_write_aux_verbs] at h
  rw [post_write_aux_ret, if_pos (ibv_post_send_failed _ _ _ h)]

theorem post_cas_verbs (c : Connection) (v : Verbs) (elems : ScatterGatherElement)
    (rbuf : RemoteBuffer) (cmp swp : Nat) :
    (c.post_cas v elems rbuf cmp swp).verbs =
      (ibv_post_send v c._qp (c.post_cas_wr elems rbuf cmp swp)).1 := by
  unfold Connection.post_cas
  dsimp only [ibv_post_send]
  split_ifs <;> rfl

theorem post_cas_ret (c : Connection) (v : Verbs) (elems : ScatterGatherElement)
    (rbuf : RemoteBuffer) (cmp swp : Nat) :
    (c.post_cas v elems rbuf cmp swp).ret =
      if v.rets.headD 0 ≠ 0 then -1 else toInt32 (int32_incr c._req_count - 1) := by
  unfold Connection.post_cas
  dsimp only [ibv_post_send]
  split_ifs <;> rfl

theorem post_cas_conn (c : Connection) (v : Verbs) (elems : ScatterGatherElement)
    (rbuf : RemoteBuffer) (cmp swp : Nat) :
    (c.post_cas v elems rbuf cmp swp).conn = { c with _req_count := int32_incr c._req_count } := by
  unfold Connection.post_cas
  dsimp only [ibv_post_send]
  split_ifs <;> rfl

theorem post_cas_failed (c : Connection) (v : Verbs) (elems : ScatterGatherElement)
    (rbuf : RemoteBuffer) (cmp swp : Nat)
    (h : post_failed v (c.post_cas v elems rbuf cmp swp).verbs) :
    (c.post_cas v elems rbuf cmp swp).ret = -1 := by
  rw [post_cas_verbs] at h
  rw [post_cas_ret, if_pos (ibv_post_send_failed _ _ _ h)]

theorem post_recv_conn (c : Connection) (v : Verbs) (elem : ScatterGatherElement)
    (id count ret0 : Int) :
    (c.post_recv v elem id count ret0).conn =
      if id = -1 then { c with _req_count := int32_incr c._req_count } else c := by
  unfold Connection.post_recv
  dsimp only
  split_ifs <;> rfl

theorem post_recv_verbs (c : Connection) (v : Verbs) (elem : ScatterGatherElement)
    (id count ret0 : Int) :
    (c.post_recv v elem id count ret0).verbs =
      (post_recv_loop c._qp [c.post_recv_wr elem id] count.toNat ret0 v).1 := by
  unfold Connection.post_recv
  dsimp only
  split_ifs <;> rfl

theorem post_recv_ret (c : Connection) (v : Verbs) (elem : ScatterGatherElement)
    (id count ret0 : Int) :
    (c.post_recv v elem id count ret0).ret =
      if (post_recv_loop c._qp [c.post_recv_wr elem id] count.toNat ret0 v).2 ≠ 0 then -1
      else toInt32 (c.post_recv_wr elem id).wr_id := by
  unfold Connection.post_recv
  dsimp only
  split_ifs <;> rfl

theorem post_recv_failed (c : Connection) (v : Verbs) (elem : ScatterGatherElement)
    (id count ret0 : Int) (hcount : 1 ≤ count)
    (h : post_failed v (c.post_recv v elem id count ret0).verbs) :
    (c.post_recv v elem id count ret0).ret = -1 := by
  rw [post_recv_ret]
  rw [post_recv_verbs] at h
  obtain ⟨new, h1, h2, _, _, _, h6, _⟩ :=
    post_recv_loop_spec c._qp [c.post_recv_wr elem id] count.toNat ret0 v
  have hn : 0 < count.toNat := by omega
  by_cases hz : (post_recv_loop c._qp [c.post_recv_wr elem id] count.toNat ret0 v).2 = 0
  · exfalso
    obtain ⟨_, hall⟩ := h6 hn hz
    rcases h with ⟨p, hp, hpr⟩ | ⟨p, hp, hpr⟩
    · simp [new_send, h2] at hp
    · simp only [new_recv, h1, List.drop_left] at hp
      exact hpr (hall p hp)
  · rw [if_pos hz]

/-! ## Sends -/

theorem post_send_submits (c : Connection) (v : Verbs) (elems : ScatterGatherElement)
    (id : Int) (fi : Bool) :
    new_send v (c.post_send v elems id fi).verbs =
      [⟨c._qp, c.post_send_wr elems id fi, v.rets.headD 0⟩] ∧
    (c.post_send_wr elems id fi).opcode = ibv_wr_opcode.IBV_WR_SEND ∧
    (c.post_send_wr elems id fi).wr_id = toUInt64 (if id = -1 then c._req_count else id) ∧
    (c.post_send v elems id fi).conn._req_count =
      (if id = -1 then int32_incr c._req_count else c._req_count) ∧
    (v.rets.headD 0 = 0 →
      (c.post_send v elems id fi).ret =
        toInt32 ((c.post_send v elems id fi).conn._req_count - 1)) := by
  refine ⟨by rw [post_send_verbs, new_send_post], rfl, rfl, ?_, ?_⟩
  · rw [post_send_conn]; split_ifs <;> rfl
  · intro h
    rw [post_send_ret, if_neg (by simpa using h), post_send_conn]
    split_ifs <;> rfl

/-- Claim C3 at the failing input: `post_send` with the explicit id `7` on a
connection whose counter is `0`. The request is submitted with opcode `Send`
and `wr_id = 7`, the library accepts it, and `post_send` returns
`_req_count - 1 = -1` instead of `7`. -/
theorem post_send_explicit_id_returns_counter :
    ((sample_conn false).post_send (fresh_verbs []) sample_sge 7 false).verbs.send_log.map
        (fun p => (p.wr.wr_id, p.wr.opcode, p.ret)) = [(7, ibv_wr_opcode.IBV_WR_SEND, 0)] ∧
    ((sample_conn false).post_send (fresh_verbs []) sample_sge 7 false).ret = -1 := by
  decide

/-! ## Submission failures -/

/-- Claim C4. For each of `post_send`, `post_recv` (with `count ≥ 1`),
`post_batched_empty_recv`, both `post_write` overloads and `post_cas`: when a
library post made by the call returns a non-zero code, the call returns `-1`
and leaves `_id`, `_qp` and `_passive` of the connection unchanged. -/
theorem post_failure_returns_minus_one (op : PostCall) (c : Connection) (v : Verbs)
    (hwf : op.count_positive = true) (hfail : post_failed v (op.exec c v).verbs) :
    (op.exec c v).ret = -1 ∧ (op.exec c v).conn._id = c._id ∧
    (op.exec c v).conn._qp = c._qp ∧ (op.exec c v).conn._passive = c._passive := by
  cases op with
  | post_send elems id fi =>
    refine ⟨post_send_failed c v elems id fi hfail, ?_⟩
    simp only [PostCall.exec, post_send_conn]
    split_ifs <;> exact ⟨rfl, rfl, rfl⟩
  | post_recv elem id count ret0 =>
    have hc : 1 ≤ count := by simpa [PostCall.count_positive] using hwf
    refine ⟨post_recv_failed c v elem id count ret0 hc hfail, ?_⟩
    simp only [PostCall.exec, post_recv_conn]
    split_ifs <;> exact ⟨rfl, rfl, rfl⟩
  | post_batched_empty_recv count =>
    obtain ⟨a, b, d, _⟩ := batched_conn_fields c v count
    exact ⟨batched_failed c v count hfail, a, b, d⟩
  | post_write elems rbuf fi =>
    refine ⟨post_write_aux_failed c v elems _ fi hfail, ?_⟩
    simp [PostCall.exec, Connection.post_write, post_write_aux_conn]
  | post_write_imm elems rbuf imm fi =>
    refine ⟨post_write_aux_failed c v elems _ fi hfail, ?_⟩
    simp [PostCall.exec, Connection.post_write_imm, post_write_aux_conn]
  | post_cas elems rbuf cmp swp =>
    refine ⟨post_cas_failed c v elems rbuf cmp swp hfail, ?_⟩
    simp [PostCall.exec, post_cas_conn]

/-- Claim C4 at concrete inputs: a failing fix-up post, a failing second
receive, a failing compare-and-swap. -/
theorem post_failure_returns_minus_one_witness :
    ((PostCall.post_batched_empty_recv 6).exec (sample_conn true) (fresh_verbs [0, 12])).ret = -1 ∧
    ((PostCall.post_recv sample_sge (-1) 3 0).exec (sample_conn true) (fresh_verbs [0, 12])).ret = -1 ∧
    ((PostCall.post_cas sample_sge sample_rbuf 1 2).exec (sample_conn false) (fresh_verbs [5])).conn._id
      = some 1 :=
  ⟨(post_failure_returns_minus_one (PostCall.post_batched_empty_recv 6) (sample_conn true) (fresh_verbs [0, 12]) (by decide)
      (by unfold post_failed; decide)).1,
   (post_failure_returns_minus_one (PostCall.post_recv sample_sge (-1) 3 0) (sample_conn true) (fresh_verbs [0, 12]) (by decide)
      (by unfold post_failed; decide)).1,
   (post_failure_returns_minus_one (PostCall.post_cas sample_sge sample_rbuf 1 2) (sample_conn false) (fresh_verbs [5])
      (by decide) (by unfold post_failed; decide)).2.1⟩

/-! ## Distinct work request ids -/

theorem post_recv_repeats (c : Connection) (v : Verbs) (elem : ScatterGatherElement)
    (id count ret0 : Int) (hcount : 1 ≤ count) (hid : isInt32 id)
    (hc : isInt32 c._req_count) :
    (∀ p ∈ new_recv v (c.post_recv v elem id count ret0).verbs,
      p.qp = c._qp ∧ p.mem = [c.post_recv_wr elem id] ∧ p.head = 0) ∧
    ((∀ p ∈ new_recv v (c.post_recv v elem id count ret0).verbs, p.ret = 0) →
      (new_recv v (c.post_recv v elem id count ret0).verbs).length = count.toNat ∧
      (c.post_recv v elem id count ret0).ret = if id = -1 then c._req_count else id) ∧
    ((∃ p ∈ new_recv v (c.post_recv v elem id count ret0).verbs, p.ret ≠ 0) →
      (c.post_recv v elem id count ret0).ret = -1 ∧
      ∃ init last, new_recv v (c.post_recv v elem id count ret0).verbs = init ++ [last] ∧
        last.ret ≠ 0 ∧ ∀ p ∈ init, p.ret = 0) := by
  obtain ⟨new, h1, _, _, h4, _, h6, h7⟩ :=
    post_recv_loop_spec c._qp [c.post_recv_wr elem id] count.toNat ret0 v
  have hn : 0 < count.toNat := by omega
  have hnew : new_recv v (c.post_recv v elem id count ret0).verbs = new := by
    rw [post_recv_verbs]
    unfold new_recv
    rw [h1, List.drop_left]
  rw [hnew, post_recv_ret]
  have hwr : toInt32 (c.post_recv_wr elem id).wr_id = if id = -1 then c._req_count else id := by
    show toInt32 (toUInt64 (if id = -1 then c._req_count else id)) = _
    split_ifs
    · exact toInt32_toUInt64 _ hc
    · exact toInt32_toUInt64 _ hid
  by_cases hz : (post_recv_loop c._qp [c.post_recv_wr elem id] count.toNat ret0 v).2 = 0
  · obtain ⟨hl, hall⟩ := h6 hn hz
    refine ⟨h4, fun _ => ⟨hl, by rw [if_neg (by simpa using hz), hwr]⟩, ?_⟩
    rintro ⟨p, hp, hpr⟩
    exact absurd (hall p hp) hpr
  · obtain ⟨init, hi1, _, hi3⟩ := h7 hn hz
    refine ⟨h4, ?_, ?_⟩
    · intro hall
      have hmem : (⟨c._qp, [c.post_recv_wr elem id], 0,
          (post_recv_loop c._qp [c.post_recv_wr elem id] count.toNat ret0 v).2⟩ : RecvPost)
            ∈ new := by
        rw [hi1]; simp
      exact absurd (hall _ hmem) hz
    · intro _
      exact ⟨by rw [if_pos hz], init, _, hi1, hz, hi3⟩

/-- Claim C6 at the failing input: `post_recv` with `count = 0`. The loop body
never runs, so the local `ret` is read without ever being written; when it
holds `1` the call returns `-1` although no post was made, when it holds `0`
the call returns the id. -/
theorem post_recv_zero_count_indeterminate :
    ((sample_conn false).post_recv (fresh_verbs []) sample_sge 5 0 1).ret = -1 ∧
    new_recv (fresh_verbs [])
      ((sample_conn false).post_recv (fresh_verbs []) sample_sge 5 0 1).verbs = [] ∧
    ((sample_conn false).post_recv (fresh_verbs []) sample_sge 5 0 0).ret = 5 := by
  decide

/-! ## Writes -/

theorem new_send_write (c : Connection) (v : Verbs) (elems : ScatterGatherElement)
    (wr : ibv_send_wr) (fi : Bool) :
    new_send v (c._post_write v elems wr fi).verbs =
      [⟨c._qp, c._post_write_wr elems wr fi, v.rets.headD 0⟩] := by
  rw [post_write_aux_verbs, new_send_post]

theorem post_write_wr_num_sge (c : Connection) (elems : ScatterGatherElement)
    (wr : ibv_send_wr) (fi : Bool) (hsize : (elems.size : Int) < 2147483648) :
    (c._post_write_wr elems wr fi).num_sge =
      if elems.degenerate then 0 else (elems.size : Int) := by
  have hconv : toInt32 (elems.size : Int) = elems.size :=
    toInt32_of_isInt32 _ ⟨by omega, hsize⟩
  simp only [Connection._post_write_wr, hconv, apply_ite ibv_send_wr.num_sge]
  obtain ⟨l⟩ := elems
  match l with
  | [] => rfl
  | [sg] =>
    by_cases h : sg.length = 0
    · simp only [ScatterGatherElement.size, ScatterGatherElement.degenerate,
        ScatterGatherElement.array, List.head?, List.length_cons, List.length_nil, h]
      rfl
    · have hb : (sg.length == 0) = false := by simpa using h
      simp only [ScatterGatherElement.size, ScatterGatherElement.degenerate,
        ScatterGatherElement.array, List.head?, List.length_cons, List.length_nil, hb]
      rfl
  | sg :: sg2 :: rest =>
    have hne : ¬ (((sg :: sg2 :: rest).length : Int) = 1) := by
      simp only [List.length_cons]; push_cast; omega
    simp only [ScatterGatherElement.size, ScatterGatherElement.degenerate, hne, false_and,
      if_false, Bool.false_eq_true]

/-- Claim C7. For a scatter-gather list whose size fits `num_sge`, both
`post_write` overloads submit exactly one work request, with `num_sge = 0`
when the list has exactly one entry and that entry has length zero, and with
`num_sge` equal to the size of the list otherwise. -/
theorem post_write_num_sge (c : Connection) (v : Verbs) (elems : ScatterGatherElement)
    (rbuf : RemoteBuffer) (immediate : Nat) (force_inline : Bool)
    (hsize : (elems.size : Int) < 2147483648) :
    (new_send v (c.post_write v elems rbuf force_inline).verbs).map (fun p => p.wr.num_sge) =
      [if elems.degenerate then 0 else (elems.size : Int)] ∧
    (new_send v (c.post_write_imm v elems rbuf immediate force_inline).verbs).map
      (fun p => p.wr.num_sge) = [if elems.degenerate then 0 else (elems.size : Int)] := by
  unfold Connection.post_write Connection.post_write_imm
  rw [new_send_write, new_send_write]
  simp only [List.map_cons, List.map_nil]
  rw [post_write_wr_num_sge _ _ _ _ hsize, post_write_wr_num_sge _ _ _ _ hsize]
  exact ⟨rfl, rfl⟩

/-- Claim C7 at concrete inputs: one entry of length zero, one entry of 64
bytes. -/
theorem post_write_num_sge_witness :
    (new_send (fresh_verbs [])
      ((sample_conn false).post_write (fresh_verbs []) empty_sge sample_rbuf false).verbs).map
        (fun p => p.wr.num_sge) = [0] ∧
    (new_send (fresh_verbs [])
      ((sample_conn false).post_write_imm (fresh_verbs []) sample_sge sample_rbuf 7 false).verbs).map
        (fun p => p.wr.num_sge) = [1] :=
  ⟨(post_write_num_sge (sample_conn false) (fresh_verbs []) empty_sge sample_rbuf 7 false (by decide)).1,
   (post_write_num_sge (sample_conn false) (fresh_verbs []) sample_sge sample_rbuf 7 false (by decide)).2⟩

/-! ## Write opcodes and immediate data -/

theorem htonl_bytes (a b c d : Nat) (ha : a < 256) (hb : b < 256) (hc : c < 256)
    (hd : d < 256) :
    htonl (a * 16777216 + b * 65536 + c * 256 + d) =
      d * 16777216 + c * 65536 + b * 256 + a := by
  unfold htonl
  have h1 : (a * 16777216 + b * 65536 + c * 256 + d) % 256 = d := by omega
  have h2 : (a * 16777216 + b * 65536 + c * 256 + d) / 256 % 256 = c := by omega
  have h3 : (a * 16777216 + b * 65536 + c * 256 + d) / 65536 % 256 = b := by omega
  have h4 : (a * 16777216 + b * 65536 + c * 256 + d) / 16777216 % 256 = a := by omega
  rw [h1, h2, h3, h4]

theorem htonl_involutive (x : Nat) (h : x < 4294967296) : ntohl (htonl x) = x := by
  have hx : x = (x / 16777216) * 16777216 + (x / 65536 % 256) * 65536
      + (x / 256 % 256) * 256 + x % 256 := by omega
  unfold ntohl
  conv_lhs => rw [hx]
  rw [htonl_bytes _ _ _ _ (by omega) (by omega) (by omega) (by omega)]
  rw [htonl_bytes _ _ _ _ (by omega) (by omega) (by omega) (by omega)]
  exact hx.symm

theorem post_write_wr_kept (c : Connection) (elems : ScatterGatherElement)
    (wr : ibv_send_wr) (fi : Bool) :
    (c._post_write_wr elems wr fi).opcode = wr.opcode ∧
    (c._post_write_wr elems wr fi).imm_data = wr.imm_data ∧
    (c._post_write_wr elems wr fi).wr = wr.wr := by
  simp only [Connection._post_write_wr]
  split <;> exact ⟨rfl, rfl, rfl⟩

/-- Claim C11. For every remote buffer and every 32-bit immediate value,
`post_write` submits one work request with opcode `Write`, and `post_write`
with immediate submits one with opcode `WriteWithImm` whose `imm_data` is
`htonl(immediate)`, from which `ntohl` gives the immediate back; in both the
remote address and the rkey are those of the buffer. -/
theorem post_write_opcode_and_immediate (c : Connection) (v : Verbs) (elems : ScatterGatherElement)
    (rbuf : RemoteBuffer) (immediate : Nat) (force_inline : Bool)
    (himm : immediate < 4294967296) :
    (new_send v (c.post_write v elems rbuf force_inline).verbs).map
        (fun p => (p.wr.opcode, p.wr.wr)) =
      [(ibv_wr_opcode.IBV_WR_RDMA_WRITE, wr_union.rdma rbuf.addr rbuf.rkey)] ∧
    (new_send v (c.post_write_imm v elems rbuf immediate force_inline).verbs).map
        (fun p => (p.wr.opcode, p.wr.imm_data, p.wr.wr)) =
      [(ibv_wr_opcode.IBV_WR_RDMA_WRITE_WITH_IMM, some (htonl immediate),
        wr_union.rdma rbuf.addr rbuf.rkey)] ∧
    ntohl (htonl immediate) = immediate := by
  refine ⟨?_, ?_, htonl_involutive immediate himm⟩
  · unfold Connection.post_write
    rw [new_send_write]
    simp only [List.map_cons, List.map_nil]
    obtain ⟨h1, _, h3⟩ := post_write_wr_kept c elems
      { zeroed_send_wr with
        opcode := ibv_wr_opcode.IBV_WR_RDMA_WRITE,
        wr := wr_union.rdma rbuf.addr rbuf.rkey } force_inline
    rw [h1, h3]
  · unfold Connection.post_write_imm
    rw [new_send_write]
    simp only [List.map_cons, List.map_nil]
    obtain ⟨h1, h2, h3⟩ := post_write_wr_kept c elems
      { zeroed_send_wr with
        opcode := ibv_wr_opcode.IBV_WR_RDMA_WRITE_WITH_IMM,
        imm_data := some (htonl immediate),
        wr := wr_union.rdma rbuf.addr rbuf.rkey } force_inline
    rw [h1, h2, h3]

/-- Claim C11 at a concrete input: the immediate `258` is carried as
`0x02010000`. -/
theorem post_write_opcode_and_immediate_witness :
    (new_send (fresh_verbs [])
      ((sample_conn false).post_write_imm (fresh_verbs []) empty_sge sample_rbuf 258 false).verbs).map
        (fun p => (p.wr.opcode, p.wr.imm_data, p.wr.wr)) =
      [(ibv_wr_opcode.IBV_WR_RDMA_WRITE_WITH_IMM, some 33619968, wr_union.rdma 8192 9)] ∧
    ntohl (htonl 258) = 258 :=
  (post_write_opcode_and_immediate (sample_conn false) (fresh_verbs []) empty_sge sample_rbuf 258 false (by decide)).2

/-! ## Send flags -/

theorem run_inlining_flags (calls : List Bool) :
    ∀ c : Connection, (run_inlining c calls)._send_flags =
      match calls.getLast? with
      | some b => if b then IBV_SEND_SIGNALED ||| IBV_SEND_INLINE else IBV_SEND_SIGNALED
      | none => c._send_flags := by
  induction calls with
  | nil => intro c; rfl
  | cons b rest ih =>
    intro c
    show (run_inlining (c.inlining b) rest)._send_flags = _
    rw [ih]
    cases rest with
    | nil =>
      simp only [List.getLast?_nil, List.getLast?_singleton]
      cases b <;> rfl
    | cons b2 rest2 =>
      rw [List.getLast?_cons_cons]
      cases h : (b2 :: rest2).getLast? with
      | none => simp at h
      | some x => rfl

theorem post_write_wr_flags (c : Connection) (elems : ScatterGatherElement)
    (wr : ibv_send_wr) (fi : Bool) :
    (c._post_write_wr elems wr fi).send_flags =
      if fi then IBV_SEND_SIGNALED ||| IBV_SEND_INLINE else c._send_flags := by
  simp only [Connection._post_write_wr]
  split <;> rfl

theorem new_flags (rbatch : Nat) (passive : Bool) :
    (Connection.new rbatch passive)._send_flags = IBV_SEND_SIGNALED := rfl

theorem expected_flags_eq (rbatch : Nat) (passive : Bool) (calls : List Bool) (fi : Bool) :
    (if fi then IBV_SEND_SIGNALED ||| IBV_SEND_INLINE
      else (run_inlining (Connection.new rbatch passive) calls)._send_flags) =
    expected_send_flags calls fi := by
  rw [run_inlining_flags, new_flags]
  unfold expected_send_flags
  cases fi
  · cases h : calls.getLast? with
    | none => simp
    | some b => cases b <;> simp
  · simp

theorem send_flags_follow_inlining (rbatch : Nat) (passive : Bool) (calls : List Bool)
    (v : Verbs) (elems : ScatterGatherElement) (id : Int) (rbuf : RemoteBuffer)
    (immediate : Nat) (fi : Bool) (cmp swp : Nat) (c2 : Connection) :
    (new_send v ((run_inlining (Connection.new rbatch passive) calls).post_send
      v elems id fi).verbs).map (fun p => p.wr.send_flags) = [expected_send_flags calls fi] ∧
    (new_send v ((run_inlining (Connection.new rbatch passive) calls).post_write
      v elems rbuf fi).verbs).map (fun p => p.wr.send_flags) = [expected_send_flags calls fi] ∧
    (new_send v ((run_inlining (Connection.new rbatch passive) calls).post_write_imm
      v elems rbuf immediate fi).verbs).map (fun p => p.wr.send_flags)
        = [expected_send_flags calls fi] ∧
    (new_send v (c2.post_cas v elems rbuf cmp swp).verbs).map
      (fun p => (p.wr.opcode, p.wr.send_flags)) =
        [(ibv_wr_opcode.IBV_WR_ATOMIC_CMP_AND_SWP, IBV_SEND_SIGNALED)] := by
  refine ⟨?_, ?_, ?_, ?_⟩
  · rw [post_send_verbs, new_send_post]
    simp only [List.map_cons, List.map_nil, Connection.post_send_wr]
    rw [expected_flags_eq]
  · unfold Connection.post_write
    rw [new_send_write]
    simp only [List.map_cons, List.map_nil]
    rw [post_write_wr_flags, expected_flags_eq]
  · unfold Connection.post_write_imm
    rw [new_send_write]
    simp only [List.map_cons, List.map_nil]
    rw [post_write_wr_flags, expected_flags_eq]
  · rw [post_cas_verbs, new_send_post]
    rfl

/-- Claim C12 at the failing input: a connection built by the move
constructor. The move constructor neither copies `_send_flags` nor calls
`inlining`, so a send without `force_inline` on the new object carries the
indeterminate value `flags` of that member: after `inlining(true)` on the
source and with the value `0`, the flags are `0` where the claim expects
`Signaled | Inline` (`10`), and without any `inlining` call they are `0` where
the claim expects `Signaled` (`2`). -/
theorem moved_connection_send_flags (c : Connection) (v : Verbs) (elems : ScatterGatherElement) (id : Int)
    (flags : Nat) :
    (new_send v ((c.move flags).1.post_send v elems id false).verbs).map
      (fun p => p.wr.send_flags) = [flags] ∧
    (new_send (fresh_verbs [])
      ((((sample_conn false).inlining true).move 0).1.post_send
        (fresh_verbs []) sample_sge (-1) false).verbs).map (fun p => p.wr.send_flags) = [0] ∧
    expected_send_flags [true] false = 10 ∧ expected_send_flags [] false = 2 := by
  refine ⟨?_, by decide, by decide, by decide⟩
  rw [post_send_verbs, new_send_post]
  rfl

/-! ## Construction -/

/-- Claim C13. Right after construction, by `Connection(bool)` or by the move
constructor, the batch array has `_rbatch` entries, entry `i` has `wr_id = i`,
a null `sg_list`, `num_sge = 0`, and `next` pointing to entry `i + 1`, the last
entry to null; following `next` from entry `0` visits exactly the `_rbatch`
entries. -/
theorem constructors_initial_batch (rbatch : Nat) (passive : Bool) (obj : Connection) (flags : Nat)
    (hpos : 0 < rbatch) (hobj : obj._rbatch = rbatch) :
    is_initial_batch rbatch (Connection.new rbatch passive)._batch_wrs ∧
    is_initial_batch rbatch (obj.move flags).1._batch_wrs := by
  have key : is_initial_batch rbatch (init_batch rbatch) := by
    refine ⟨init_batch_length rbatch, ?_, ?_⟩
    · intro i hi
      rw [init_batch_getElem?, if_pos hi]
    · have hnext : ∀ i w, (init_batch rbatch)[i]? = some w →
          w.next = if i + 1 < rbatch then some (i + 1) else none := by
        intro i w hw
        rw [init_batch_getElem?] at hw
        by_cases hi : i < rbatch
        · simp only [hi, if_true, Option.some.injEq] at hw
          subst hw
          rfl
        · simp [hi] at hw
      exact chain_full none (init_batch rbatch) 0 rbatch hpos (init_batch_length rbatch) hnext
  refine ⟨key, ?_⟩
  subst hobj
  exact key

/-- Claim C13 at a concrete input: a batch of four. -/
theorem constructors_initial_batch_witness :
    (Connection.new 4 true)._batch_wrs =
      [{ wr_id := 0, next := some 1, sg_list := none, num_sge := 0 },
       { wr_id := 1, next := some 2, sg_list := none, num_sge := 0 },
       { wr_id := 2, next := some 3, sg_list := none, num_sge := 0 },
       { wr_id := 3, next := none, sg_list := none, num_sge := 0 }] ∧
    is_initial_batch 4 ((sample_conn true).move 0).1._batch_wrs :=
  ⟨by decide, (constructors_initial_batch 4 true (sample_conn true) 0 (by decide) rfl).2⟩

/-! ## The request counter -/

theorem close_log (c : Connection) (v : Verbs) :
    (c.close v).2.destroy_log = v.destroy_log ++ pending c := by
  unfold Connection.close pending expected_destroys
  cases hid : c._id with
  | none => simp
  | some x => cases hp : c._passive <;> simp

theorem close_id (c : Connection) (v : Verbs) : (c.close v).1._id = none := by
  unfold Connection.close
  cases hid : c._id with
  | none => simp [hid]
  | some x => cases hp : c._passive <;> simp

theorem close_pending (c : Connection) (v : Verbs) : pending (c.close v).1 = [] := by
  unfold pending
  rw [close_id]

theorem close_null (c : Connection) (v : Verbs) (h : c._id = none) : c.close v = (c, v) := by
  unfold Connection.close
  rw [h]

theorem move_pending_new (c : Connection) (flags : Nat) :
    pending (c.move flags).1 = pending c := rfl

theorem move_pending_old (c : Connection) (flags : Nat) :
    pending (c.move flags).2 = [] := rfl

theorem settled_step (log0 owed : List DestroyCall) (s : Life) (st : LifeStep)
    (h : Life.settled log0 owed s) : Life.settled log0 owed (s.step st) := by
  cases st with
  | close_obj =>
    simp only [Life.step]
    rcases h with ⟨h1, h2, h3⟩ | ⟨h1, h2, h3⟩ | ⟨h1, h2, h3⟩
    · right; right
      exact ⟨by rw [close_log, h1, h2], close_pending _ _, by simp [h3]⟩
    · right; left
      exact ⟨by rw [close_log, h1, h2, List.append_nil], close_pending _ _, h3⟩
    · right; right
      exact ⟨by rw [close_log, h1, h2, List.append_nil], close_pending _ _, h3⟩
  | move flags =>
    rcases h with ⟨h1, h2, h3⟩ | ⟨h1, h2, m, h3, h4⟩ | ⟨h1, h2, h3⟩
    · right; left
      simp only [Life.step, h3]
      exact ⟨h1, move_pending_old _ _, _, rfl, by rw [move_pending_new, h2]⟩
    · right; left
      simp only [Life.step, h3]
      exact ⟨h1, h2, m, rfl, h4⟩
    · right; right
      cases hm : s.moved with
      | none =>
        simp only [Life.step, hm]
        refine ⟨h1, move_pending_old _ _, ?_⟩
        intro m hm'
        simp only [Option.some.injEq] at hm'
        rw [← hm', move_pending_new, h2]
      | some m =>
        simp only [Life.step, hm]
        exact ⟨h1, h2, fun m' hm' => h3 m' (by rw [hm]; exact hm')⟩
  | close_moved =>
    rcases h with ⟨h1, h2, h3⟩ | ⟨h1, h2, m, h3, h4⟩ | ⟨h1, h2, h3⟩
    · left
      simp only [Life.step, h3]
      exact ⟨h1, h2, trivial⟩
    · right; right
      simp only [Life.step, h3]
      refine ⟨by rw [close_log, h1, h4], h2, ?_⟩
      intro m' hm'
      simp only [Option.some.injEq] at hm'
      rw [← hm', close_pending]
    · right; right
      cases hm : s.moved with
      | none =>
        simp only [Life.step, hm]
        exact ⟨h1, h2, fun m' hm' => by cases hm'⟩
      | some m =>
        simp only [Life.step, hm]
        refine ⟨by rw [close_log, h1, h3 m hm, List.append_nil], h2, ?_⟩
        intro m' hm'
        simp only [Option.some.injEq] at hm'
        rw [← hm', close_pending]

theorem settled_steps (log0 owed : List DestroyCall) (steps : List LifeStep) :
    ∀ s, Life.settled log0 owed s → Life.settled log0 owed (steps.foldl Life.step s) := by
  induction steps with
  | nil => intro s h; exact h
  | cons st steps ih => intro s h; exact ih _ (settled_step log0 owed s st h)

theorem settled_finish (log0 owed : List DestroyCall) (s : Life) (obj_first : Bool)
    (h : Life.settled log0 owed s) : (s.finish obj_first).destroy_log = log0 ++ owed := by
  unfold Life.finish Connection.destructor
  rcases h with ⟨h1, h2, h3⟩ | ⟨h1, h2, m, h3, h4⟩ | ⟨h1, h2, h3⟩
  · simp only [h3]
    rw [close_log, h1, h2]
  · simp only [h3]
    cases obj_first
    · simp only [Bool.false_eq_true, if_false]
      rw [close_log, close_log, h1, h2, h4, List.append_nil]
    · simp only [if_true]
      rw [close_log, close_log, h1, h2, h4, List.append_nil]
  · cases hm : s.moved with
    | none =>
      simp only
      rw [close_log, h1, h2, List.append_nil]
    | some m =>
      simp only
      cases obj_first
      · simp only [Bool.false_eq_true, if_false]
        rw [close_log, close_log, h1, h2, h3 m hm, List.append_nil, List.append_nil]
      · simp only [if_true]
        rw [close_log, close_log, h1, h2, h3 m hm, List.append_nil, List.append_nil]

/-- Claim C8. Take a connection holding the id `x`. Over its lifetime (any
sequence of `close()` calls on it, at most one move construction from it,
`close()` calls on the new object, then both destructors in either order) the
destroy calls issued are exactly `rdma_destroy_ep x` on the active side and
`rdma_destroy_qp x` followed by `rdma_destroy_id x` on the passive side.
`close()` on a connection whose id is null does nothing; the id is null after
`close()`, in a moved-from object and in a newly constructed one. -/
theorem lifetime_destroys_once (c : Connection) (v : Verbs) (steps : List LifeStep) (obj_first : Bool) (x : Nat)
    (hid : c._id = some x) :
    new_destroy v (lifetime c v steps obj_first) = expected_destroys c._passive x ∧
    (∀ (d : Connection) (w : Verbs), d._id = none → d.close w = (d, w)) ∧
    (∀ (d : Connection) (w : Verbs), (d.close w).1._id = none) ∧
    (∀ (d : Connection) (flags : Nat), (d.move flags).2._id = none) ∧
    (∀ (rbatch : Nat) (passive : Bool), (Connection.new rbatch passive)._id = none) := by
  refine ⟨?_, close_null, close_id, fun _ _ => rfl, fun _ _ => rfl⟩
  have h0 : Life.settled v.destroy_log (expected_destroys c._passive x)
      { obj := c, moved := none, verbs := v } := by
    left
    exact ⟨rfl, by simp [pending, hid], rfl⟩
  have h := settled_finish _ _ _ obj_first (settled_steps _ _ steps _ h0)
  unfold new_destroy lifetime
  rw [h, List.drop_left]

/-- Claim C8 at concrete inputs: a passive connection that is moved and closed
several times, an active one that is closed twice. -/
theorem lifetime_destroys_once_witness :
    new_destroy (fresh_verbs [])
      (lifetime (sample_conn true) (fresh_verbs [])
        [LifeStep.close_moved, LifeStep.move 0, LifeStep.close_obj, LifeStep.close_moved,
         LifeStep.close_moved] true)
      = [DestroyCall.rdma_destroy_qp 1, DestroyCall.rdma_destroy_id 1] ∧
    new_destroy (fresh_verbs [])
      (lifetime (sample_conn false) (fresh_verbs []) [LifeStep.close_obj, LifeStep.close_obj] false)
      = [DestroyCall.rdma_destroy_ep 1] :=
  ⟨(lifetime_destroys_once (sample_conn true) (fresh_verbs []) _ true 1 rfl).1,
   (lifetime_destroys_once (sample_conn false) (fresh_verbs []) _ false 1 rfl).1⟩

end rdmalib

namespace rfaas.executor_manager

/-! ## Executor processes -/

/-- The outcomes of `check()` read from the status word: `(RUNNING, 0)` when
the pid is zero; otherwise `(FINISHED, exit code)` when the status says the
child exited, `(FINISHED_FAIL, signal)` when it says a signal killed it,
`(FINISHED_FAIL, -1)` in the remaining case. The four cases exclude each
other, the exit code lies in `0..255` and the signal in `1..126`. -/
theorem check_by_status_word (return_pid status : Int) :
    (return_pid = 0 ∧ ProcessExecutor.check return_pid status = (Status.RUNNING, 0)) ∨
    (return_pid ≠ 0 ∧ WIFEXITED status = true ∧ WIFSIGNALED status = false ∧
      ProcessExecutor.check return_pid status = (Status.FINISHED, WEXITSTATUS status) ∧
      0 ≤ WEXITSTATUS status ∧ WEXITSTATUS status ≤ 255) ∨
    (return_pid ≠ 0 ∧ WIFEXITED status = false ∧ WIFSIGNALED status = true ∧
      ProcessExecutor.check return_pid status = (Status.FINISHED_FAIL, WTERMSIG status) ∧
      1 ≤ WTERMSIG status ∧ WTERMSIG status ≤ 126) ∨
    (return_pid ≠ 0 ∧ WIFEXITED status = false ∧ WIFSIGNALED status = false ∧
      ProcessExecutor.check return_pid status = (Status.FINISHED_FAIL, -1)) := by
  by_cases hp : return_pid = 0
  · left
    exact ⟨hp, by simp [ProcessExecutor.check, hp]⟩
  · right
    by_cases he : WIFEXITED status = true
    · left
      refine ⟨hp, he, ?_, by simp [ProcessExecutor.check, hp, he], ?_, ?_⟩
      · simp only [WIFEXITED, WTERMSIG, beq_iff_eq] at he
        simp only [WIFSIGNALED, toInt8, decide_eq_false_iff_not]
        omega
      · unfold WEXITSTATUS; omega
      · unfold WEXITSTATUS; omega
    · right
      have he' : WIFEXITED status = false := by simpa using he
      by_cases hs : WIFSIGNALED status = true
      · left
        refine ⟨hp, he', hs, by simp [ProcessExecutor.check, hp, he', hs], ?_, ?_⟩
        · simp only [WIFSIGNALED, toInt8, decide_eq_true_eq] at hs
          unfold WTERMSIG
          omega
        · simp only [WIFSIGNALED, toInt8, decide_eq_true_eq] at hs
          unfold WTERMSIG
          omega
      · right
        have hs' : WIFSIGNALED status = false := by simpa using hs
        exact ⟨hp, he', hs', by simp [ProcessExecutor.check, hp, he', hs']⟩

/-- Claim C9 at the failing input: `waitpid` fails and returns `-1`, so the
local `status` was never written. `check()` still reads it: when it holds `0`
the result is `(FINISHED, 0)`, when it holds `9` the result is
`(FINISHED_FAIL, 9)`, where the claim has `(FINISHED_FAIL, -1)` for every case
in which the child neither is unchanged, nor exited, nor was killed. -/
theorem check_failed_wait_reads_status :
    ProcessExecutor.check (-1) 0 = (Status.FINISHED, 0) ∧
    ProcessExecutor.check (-1) 9 = (Status.FINISHED_FAIL, 9) ∧
    ProcessExecutor.check (-1) 127 = (Status.FINISHED_FAIL, -1) := by
  decide

/-- Claim C10. The argument vector built by `spawn` is the common arguments
of section 4.8 of the specification, in that order and filled from the
request, the settings and the credentials, preceded by `executor` alone for
the process sandbox and by `docker_rdma_sriov run --rm -i --net=... --ip=...
--volume ...:/opt registry/image /opt/bin/executor` for the Docker sandbox. -/
theorem spawn_argv_layout (request : AllocationRequest) (exec : ExecutorSettings)
    (conn : ManagerConnection) :
    ProcessExecutor.spawn_argv request exec conn =
      (if exec.docker.use_docker then "docker_rdma_sriov" :: docker_args exec.docker
       else ["executor"]) ++ common_args request exec conn (executor_pin_threads exec) := by
  unfold ProcessExecutor.spawn_argv common_args docker_args
  cases h : exec.docker.use_docker <;> simp

/-- The first end-to-end scenario of the specification: the argument vector
begins with `executor -a 127.0.0.1 -p 20000`. -/
theorem spawn_argv_single_allocation :
    (ProcessExecutor.spawn_argv
      { listen_address := "127.0.0.1", listen_port := 20000, cores := 1, hot_timeout := 5000,
        input_buf_size := 1024, func_buf_size := 4096 }
      { repetitions := 1, warmup_iters := 2, recv_buffer_size := 32, max_inline_data := 128,
        pin_threads := true,
        docker := { use_docker := false, image := "img", network := "net", ip := "1.2.3.4",
                    volume := "/v", registry_ip := "reg", registry_port := 5000 } }
      { addr := "10.0.0.1", port := 10000, secret := 42, r_addr := 123456, r_key := 77 }).take 5
      = ["executor", "-a", "127.0.0.1", "-p", "20000"] := by
  decide

/-- Claim C16. Whatever the executor settings, `pin_threads` included, the
argument that `spawn` places after `--pin-threads` is the string `0`. -/
theorem spawn_pin_threads_always_zero (request : AllocationRequest) (exec : ExecutorSettings)
    (conn : ManagerConnection) :
    executor_pin_threads exec = "0" ∧
    (ProcessExecutor.spawn_argv request exec conn)[
      if exec.docker.use_docker then 22 else 13]? = some "--pin-threads" ∧
    (ProcessExecutor.spawn_argv request exec conn)[
      if exec.docker.use_docker then 23 else 14]? = some "0" := by
  have hpin : executor_pin_threads exec = "0" := by
    unfold executor_pin_threads
    cases exec.pin_threads <;> rfl
  refine ⟨hpin, ?_, ?_⟩
  · unfold ProcessExecutor.spawn_argv
    cases h : exec.docker.use_docker <;> simp
  · unfold ProcessExecutor.spawn_argv
    rw [hpin]
    cases h : exec.docker.use_docker <;> simp

/-! ## Sandbox arguments -/

theorem string_format_device (dev : String) :
    string_format "--device=%s" [dev] = "--device=" ++ dev := by
  apply String.ext
  simp [string_format, format_chars]

theorem string_format_mount (a b : String) :
    string_format "--mount=type=bind,source=%s,destination=%s" [a, b] =
      "--mount=type=bind,source=" ++ a ++ ",destination=" ++ b := by
  apply String.ext
  simp [string_format, format_chars]

theorem string_format_env (k v : String) : string_format "%s=%s" [k, v] = k ++ "=" ++ v := by
  apply String.ext
  simp [string_format, format_chars]

theorem format_expand_literal (pre mat suf : List Char) :
    ∀ fmt : List Char, '$' ∉ fmt → format_expand pre mat suf fmt = fmt := by
  intro fmt
  induction fmt with
  | nil => intro _; rfl
  | cons c tail ih =>
    intro h
    cases tail with
    | nil => rfl
    | cons d rest =>
      have hc : c ≠ '$' := fun e => h (by simp [e])
      have ht : '$' ∉ d :: rest := fun e => h (List.mem_cons_of_mem _ e)
      rw [format_expand.eq_def]
      simp only [if_neg hc]
      rw [ih ht]

theorem regex_replace_scan_literal (fmt : List Char) (h : '$' ∉ fmt) :
    ∀ (s : List Char) (skip : Nat) (pre : List Char),
      regex_replace_scan fmt skip pre s = substitute_scan fmt skip s := by
  intro s
  induction s with
  | nil => intro skip pre; cases skip <;> rfl
  | cons c rest ih =>
    intro skip pre
    cases skip with
    | succ k =>
      rw [regex_replace_scan, substitute_scan]
      exact ih k pre
    | zero =>
      rw [regex_replace_scan, substitute_scan]
      split_ifs
      · rw [format_expand_literal _ _ _ fmt h, ih]
      · rw [ih]

theorem regex_replace_user_literal (m user : String) (h : '$' ∉ user.data) :
    regex_replace_user m user = substitute_user m user := by
  unfold regex_replace_user substitute_user
  rw [regex_replace_scan_literal user.data h]

theorem foldl_append_singleton {α β : Type} (f : α → β) (l : List α) :
    ∀ init : List β, l.foldl (fun acc x => acc ++ [f x]) init = init ++ l.map f := by
  induction l with
  | nil => intro init; simp
  | cons x rest ih => intro init; simp [ih]

theorem foldl_append_pair {α β : Type} (a : β) (f : α → β) (l : List α) :
    ∀ init : List β, l.foldl (fun acc x => acc ++ [a] ++ [f x]) init =
      init ++ l.flatMap (fun x => [a, f x]) := by
  induction l with
  | nil => intro init; simp
  | cons x rest ih =>
    intro init
    rw [List.foldl_cons, ih]
    simp

theorem flatMap_pair_length {α β : Type} (a : β) (f : α → β) (l : List α) :
    (l.flatMap (fun x => [a, f x])).length = 2 * l.length := by
  induction l with
  | nil => rfl
  | cons x rest ih =>
    rw [List.flatMap_cons, List.length_append, ih, List.length_cons, List.length_cons,
      List.length_cons, List.length_nil]
    omega

theorem generate_args_literal (cfg : SandboxConfiguration) (args : List String)
    (user : String) (h : '$' ∉ user.data) :
    cfg.generate_args args user = args ++ expected_sandbox_args cfg user ∧
    (expected_sandbox_args cfg user).length =
      cfg.devices.length + cfg.mount_filesystem.length + cfg.mounts.length
        + 2 * cfg.env.length := by
  constructor
  · unfold SandboxConfiguration.generate_args expected_sandbox_args
    simp only [string_format_device, string_format_mount, string_format_env,
      regex_replace_user_literal _ _ h]
    rw [foldl_append_singleton (fun d => "--device=" ++ d),
      foldl_append_singleton (fun m => "--mount=type=bind,source=" ++ substitute_user m user
        ++ ",destination=" ++ substitute_user m user),
      foldl_append_singleton (fun m => "--mount=type=bind,source=" ++ m ++ ",destination=" ++ m),
      foldl_append_pair "-e" (fun kv : String × String => kv.1 ++ "=" ++ kv.2)]
    simp only [List.append_assoc]
  · unfold expected_sandbox_args
    rw [List.length_append, List.length_append, List.length_append, List.length_map,
      List.length_map, List.length_map,
      flatMap_pair_length "-e" (fun kv : String × String => kv.1 ++ "=" ++ kv.2)]

theorem generate_args_literal_witness :
    sample_sandbox.generate_args ["run"] "bob" =
      ["run", "--device=/dev/infiniband",
       "--mount=type=bind,source=/home/bob,destination=/home/bob",
       "--mount=type=bind,source=/scratch,destination=/scratch", "-e", "A=1"] := by
  rw [(generate_args_literal sample_sandbox ["run"] "bob" (by decide)).1]
  decide

/-- Claim C14 at the failing input: the user string `$$`. `std::regex_replace`
reads the user string as a replacement format, in which `$$` stands for one
`$`: the mount `/home/{user}` becomes `/home/$`, where substituting the user
string for `{user}` gives `/home/$$`. -/
theorem generate_args_dollar_user :
    sample_sandbox.generate_args ["run"] "$$" =
      ["run", "--device=/dev/infiniband",
       "--mount=type=bind,source=/home/$,destination=/home/$",
       "--mount=type=bind,source=/scratch,destination=/scratch", "-e", "A=1"] ∧
    expected_sandbox_args sample_sandbox "$$" =
      ["--device=/dev/infiniband",
       "--mount=type=bind,source=/home/$$,destination=/home/$$",
       "--mount=type=bind,source=/scratch,destination=/scratch", "-e", "A=1"] := by
  decide

end rfaas.executor_manager
